import Mathlib

/-!
# Verification of the Chip8Py CHIP-8 interpreter core

A shallow embedding of the interpreter core of the Chip8Py repository
(`src/cpu.py`, `src/chip8.py`, and the host key/event handlers of
`src/main.py`), together with theorems settling the frozen claims about it.

Modelling conventions:
* Python byte lists (`memory`, `v`, `gfx`, `stack`) are `List Nat`.
* Python `time.time()` values are modelled as exact numbers (`Int` in this
  embedding); the current wall-clock time is an explicit input of `step`,
  and the embedded logic only ever uses the elapsed-time comparison
  `(now - watch_start) * 60 >= 1`.
* `random.randint(0, 255)` is modelled as an explicit input `rnd` of `step`.
* Python in-place mutation plus `raise` is modelled by returning the mutated
  state together with an optional error: `Chip8 × Option Chip8Error`.
* Python list indexing out of range raises `IndexError`; the model reads a
  default `0` (`List.getD`) and writes as a no-op (`List.set`).  All theorems
  below operate on states whose accesses stay in range, where the two
  semantics agree.  Negative stack indices (Python indexes from the end)
  are modelled by `pyListGet`/`pyListSet` on an `Int` stack pointer.
* `np.array(_, dtype=np.uint32)` / `dtype=np.uint8` casts are modelled as
  `% 4294967296` and `% 256` respectively.
-/

namespace Chip8Py

/-- Error kinds raised by `Cpu.step` (`Chip8Exception` in `src/cpu.py`):
the "Do not call Step when chip8.waiting_for_key_press is set." message is
`invalidState`, and the "Unsupported opcode {opcode:04X}" messages are
`unsupportedOpcode` carrying the 16-bit opcode value. -/
inductive Chip8Error where
  | invalidState : Chip8Error
  | unsupportedOpcode : Nat → Chip8Error
deriving Repr, DecidableEq

/-- The machine state: the `Chip8` dataclass of `src/chip8.py`. -/
structure Chip8 where
  memory : List Nat
  v : List Nat
  gfx : List Nat
  stack : List Nat
  sp : Int
  pc : Nat
  i : Nat
  delay_timer : Nat
  sound_timer : Nat
  keyboard : Nat
  waiting_for_key_press : Bool
  watch_start : Int
deriving Repr, DecidableEq

/-- A freshly constructed `Chip8()` dataclass instance; `t0` is the
`time.time()` value captured by the `watch_start` default factory (an
arbitrary timestamp). -/
def initChip8 (t0 : Int) : Chip8 :=
  { memory := List.replicate 4096 0
    v := List.replicate 16 0
    gfx := List.replicate (64 * 32) 0
    stack := List.replicate 16 0
    sp := 0
    pc := 0
    i := 0
    delay_timer := 0
    sound_timer := 0
    keyboard := 0
    waiting_for_key_press := false
    watch_start := t0 }

/-- `Cpu.FONT_CHARACTERS` from `src/cpu.py`: the 80-byte built-in font. -/
def FONT_CHARACTERS : List Nat :=
  [0xF0, 0x90, 0x90, 0x90, 0xF0, 0x20, 0x60, 0x20, 0x20, 0x70, 0xF0, 0x10, 0xF0, 0x80, 0xF0, 0xF0, 0x10, 0xF0, 0x10, 0xF0,
   0x90, 0x90, 0xF0, 0x10, 0x10, 0xF0, 0x80, 0xF0, 0x10, 0xF0, 0xF0, 0x80, 0xF0, 0x90, 0xF0, 0xF0, 0x10, 0x20, 0x40, 0x40,
   0xF0, 0x90, 0xF0, 0x90, 0xF0, 0xF0, 0x90, 0xF0, 0x10, 0xF0, 0xF0, 0x90, 0xF0, 0x90, 0x90, 0xE0, 0x90, 0xE0, 0x90, 0xE0,
   0xF0, 0x80, 0x80, 0x80, 0xF0, 0xE0, 0x90, 0x90, 0x90, 0xE0, 0xF0, 0x80, 0xF0, 0x80, 0xF0, 0xF0, 0x80, 0xF0, 0x80, 0x80]

/-- The `for i, byte_val in enumerate(program)` loop of `Cpu.load_program`:
write `program` bytes (masked to 8 bits) at consecutive addresses starting at
`addr`, skipping writes at addresses `≥ 4096`. -/
def writeProg (m : List Nat) (addr : Nat) : List Nat → List Nat
  | [] => m
  | b :: rest => writeProg (if addr < 4096 then m.set addr (b &&& 0xFF) else m) (addr + 1) rest

/-- `Cpu.load_program` from `src/cpu.py`: clear memory, install the font at
address 0, copy the program at 0x200 (= 512), set `pc = 0x200`, `sp = 0`. -/
def load_program (chip8 : Chip8) (program : List Nat) : Chip8 :=
  { chip8 with
    memory := writeProg (FONT_CHARACTERS ++ List.replicate (4096 - 80) 0) 512 program
    pc := 512
    sp := 0 }

/-- Big-endian 16-bit opcode fetch:
`(chip8.memory[chip8.pc] << 8) | chip8.memory[chip8.pc + 1]`. -/
def fetch (s : Chip8) : Nat :=
  (s.memory.getD s.pc 0) <<< 8 ||| s.memory.getD (s.pc + 1) 0

/-- `Cpu.key_pressed` from `src/cpu.py`: clear the wait flag, decode the
destination register from the opcode still addressed by `pc`, store the key,
and advance `pc` by 2. -/
def key_pressed (chip8 : Chip8) (key : Nat) : Chip8 :=
  let s := { chip8 with waiting_for_key_press := false }
  let opcode := fetch s
  { s with
    v := s.v.set ((opcode &&& 0x0F00) >>> 8) (key &&& 0xFF)
    pc := s.pc + 2 }

/-- The 60Hz timer block at the top of `Cpu.step` (src/cpu.py lines 55-62):
initialize `watch_start` when it is zero, then decrement a nonzero
`delay_timer` once when at least 1/60 s of wall-clock time has elapsed,
resetting the timestamp.  (The source never touches `sound_timer` here.) -/
def tickTimers (s : Chip8) (now : Int) : Chip8 :=
  let s1 := if s.watch_start = 0 then { s with watch_start := now } else s
  if 0 < s1.delay_timer ∧ 1 ≤ (now - s1.watch_start) * 60 then
    { s1 with delay_timer := s1.delay_timer - 1, watch_start := now }
  else s1

/-- Python `(a - b) & 0xFF` on register values: subtraction in `Int`
followed by the always-nonnegative Python `%`/bitmask. -/
def byteSub (a b : Nat) : Nat := (((a : Int) - (b : Int)) % 256).toNat

/-- Python list read `l[i]` with an `Int` index: negative indices read from
the end of the list (CPython semantics for `-len ≤ i < 0`). -/
def pyListGet (l : List Nat) (idx : Int) : Nat :=
  if idx < 0 then l.getD (l.length - (-idx).toNat) 0 else l.getD idx.toNat 0

/-- Python list write `l[i] = a` with an `Int` index: negative indices write
from the end of the list. -/
def pyListSet (l : List Nat) (idx : Int) (a : Nat) : List Nat :=
  if idx < 0 then l.set (l.length - (-idx).toNat) a else l.set idx.toNat a

/-- The valid framebuffer indices toggled by one sprite row in
`Cpu.draw_sprites_fast`: bits `c = 0..7` of the row byte `b` (most
significant first), kept when `x + c < 64` (the `valid_pixels` mask) and the
sprite bit is 1, mapped to `row_offset + valid_x = yy * 64 + (x + c)`. -/
def spriteRowIdxs (x yy b : Nat) : List Nat :=
  (((List.range 8).filter fun c => decide (x + c < 64) && ((b >>> (7 - c)) &&& 1 == 1)).map
    fun c => yy * 64 + (x + c))

/-- The vectorized `gfx_array[pixel_indices] ^= 0xffffffff` update of one
sprite row: XOR-complement the 32-bit pixel word at each listed index. -/
def toggleRow (gfx : List Nat) (idxs : List Nat) : List Nat :=
  idxs.foldl (fun g idx => g.set idx (g.getD idx 0 ^^^ 0xFFFFFFFF)) gfx

/-- The `for byte_index in range(len(sprite_bytes))` loop of
`Cpu.draw_sprites_fast`: process sprite rows from row offset `r`, stopping at
the first row with `y + r ≥ 32` (`break`), collecting the collision flag
(`existing_pixels > 0` before the XOR) and toggling the row's pixels. -/
def drawRows (x y : Nat) : Nat → List Nat → List Nat → List Nat × Bool
  | _, [], gfx => (gfx, false)
  | r, b :: rest, gfx =>
    if 32 ≤ y + r then (gfx, false)
    else
      let idxs := spriteRowIdxs x (y + r) b
      let coll := idxs.any fun idx => decide (0 < gfx.getD idx 0)
      let res := drawRows x y (r + 1) rest (toggleRow gfx idxs)
      (res.1, coll || res.2)

/-- `Cpu.draw_sprites_fast` from `src/cpu.py` (the sprite-draw variant
actually invoked by the `D` opcode in `Cpu.step`): view `gfx` as uint32 and
`memory` as uint8 (NumPy casts, modelled as `%`), slice
`memory[i : i + n]` (silently truncated at the end of memory, NumPy slice
semantics), and blit the rows, returning the new framebuffer and the
collision flag. -/
def draw_sprites_fast (chip8 : Chip8) (x y n : Nat) : List Nat × Bool :=
  let gfx0 := chip8.gfx.map (· % 4294967296)
  let sprite_bytes := ((chip8.memory.drop chip8.i).take n).map (· % 256)
  drawRows x y 0 sprite_bytes gfx0

/-- The index list of all framebuffer cells toggled by `drawRows` starting at
row offset `r` (specification device used to characterize the draw). -/
def drawListIdxs (x y : Nat) : Nat → List Nat → List Nat
  | _, [] => []
  | r, b :: rest =>
    if 32 ≤ y + r then []
    else spriteRowIdxs x (y + r) b ++ drawListIdxs x y (r + 1) rest

/-- The index list of all framebuffer cells toggled by
`draw_sprites_fast chip8 x y n`; it depends only on `memory`, `i`, the
origin and the row count, never on the framebuffer contents. -/
def drawnIdxs (chip8 : Chip8) (x y n : Nat) : List Nat :=
  drawListIdxs x y 0 (((chip8.memory.drop chip8.i).take n).map (· % 256))

/-- Sprite bit `c` (0 = most significant) of the row byte `b`, as drawn by
`draw_sprites_fast`: `(b >> (7 - c)) & 1 == 1`. -/
def spriteBit (b c : Nat) : Bool := (b >>> (7 - c)) &&& 1 == 1

/-- Whether the framebuffer pixel at screen row `yy`, column `xx` is on; the
source consistently tests `> 0` (collision detection in the draw routines and
the renderer's `arr != 0` mask). -/
def pixelOn (gfx : List Nat) (yy xx : Nat) : Bool :=
  decide (0 < gfx.getD (yy * 64 + xx) 0)

/-- The family-0 block of `Cpu.step` (src/cpu.py lines 74-81): clear screen,
return from subroutine, else unsupported.  `s` is the state after the
`pc += 2` pre-increment. -/
def exec0 (s : Chip8) (opcode : Nat) : Chip8 × Option Chip8Error :=
  if opcode = 0x00E0 then
    ({ s with gfx := List.replicate (64 * 32) 0 }, none)
  else if opcode = 0x00EE then
    ({ s with sp := s.sp - 1, pc := pyListGet s.stack (s.sp - 1) }, none)
  else (s, some (.unsupportedOpcode opcode))

/-- The family-8 arithmetic block of `Cpu.step` (src/cpu.py lines 110-140).
The source assigns `chip8.v[15]` (the flag) *before* reading `chip8.v[vx]`
and `chip8.v[vy]` for the result in the 8xy5/6/7/E cases, which is visible
when `vx` or `vy` is 15; the `v1` intermediate below reproduces that order of
mutation exactly.  The source's chain of `sub_op == k` tests is written as a
match on `sub_op = opcode & 0x000F`, with the catch-all arm as the final
`else: raise`. -/
def execALU (s : Chip8) (opcode : Nat) : Chip8 × Option Chip8Error :=
  let vx := (opcode &&& 0x0F00) >>> 8
  let vy := (opcode &&& 0x00F0) >>> 4
  match opcode &&& 0x000F with
  | 0 =>
    ({ s with v := s.v.set vx (s.v.getD vy 0) }, none)
  | 1 =>
    ({ s with v := s.v.set vx ((s.v.getD vx 0 ||| s.v.getD vy 0) &&& 0xFF) }, none)
  | 2 =>
    ({ s with v := s.v.set vx ((s.v.getD vx 0 &&& s.v.getD vy 0) &&& 0xFF) }, none)
  | 3 =>
    ({ s with v := s.v.set vx ((s.v.getD vx 0 ^^^ s.v.getD vy 0) &&& 0xFF) }, none)
  | 4 =>
    let result := s.v.getD vx 0 + s.v.getD vy 0
    let v1 := s.v.set 15 (if 255 < result then 1 else 0)
    ({ s with v := v1.set vx (result &&& 0xFF) }, none)
  | 5 =>
    let v1 := s.v.set 15 (if s.v.getD vy 0 < s.v.getD vx 0 then 1 else 0)
    ({ s with v := v1.set vx (byteSub (v1.getD vx 0) (v1.getD vy 0)) }, none)
  | 6 =>
    let v1 := s.v.set 15 (s.v.getD vx 0 &&& 0x01)
    ({ s with v := v1.set vx (v1.getD vx 0 >>> 1) }, none)
  | 7 =>
    let v1 := s.v.set 15 (if s.v.getD vx 0 < s.v.getD vy 0 then 1 else 0)
    ({ s with v := v1.set vx (byteSub (v1.getD vy 0) (v1.getD vx 0)) }, none)
  | 14 =>
    let v1 := s.v.set 15 (if s.v.getD vx 0 &&& 0x80 = 0x80 then 1 else 0)
    ({ s with v := v1.set vx ((v1.getD vx 0 <<< 1) &&& 0xFF) }, none)
  | _ => (s, some (.unsupportedOpcode opcode))

/-- The `D` sprite-draw dispatch of `Cpu.step` (src/cpu.py lines 156-160):
origin from registers, row count from the low nibble, blit through
`draw_sprites_fast`, collision flag into `v[15]`. -/
def execDraw (s : Chip8) (opcode : Nat) : Chip8 × Option Chip8Error :=
  let x := s.v.getD ((opcode &&& 0x0F00) >>> 8) 0
  let y := s.v.getD ((opcode &&& 0x00F0) >>> 4) 0
  let n := opcode &&& 0x000F
  let res := draw_sprites_fast s x y n
  ({ s with gfx := res.1, v := s.v.set 15 (if res.2 then 1 else 0) }, none)

/-- The family-E key-skip block of `Cpu.step` (src/cpu.py lines 162-172). -/
def execKeySkip (s : Chip8) (opcode : Nat) : Chip8 × Option Chip8Error :=
  if opcode &&& 0x00FF = 0x009E then
    if (s.keyboard >>> s.v.getD ((opcode &&& 0x0F00) >>> 8) 0) &&& 0x01 = 0x01 then
      ({ s with pc := s.pc + 2 }, none)
    else (s, none)
  else if opcode &&& 0x00FF = 0x00A1 then
    if (s.keyboard >>> s.v.getD ((opcode &&& 0x0F00) >>> 8) 0) &&& 0x01 ≠ 0x01 then
      ({ s with pc := s.pc + 2 }, none)
    else (s, none)
  else (s, some (.unsupportedOpcode opcode))

/-- The family-F miscellaneous block of `Cpu.step` (src/cpu.py lines
174-202).  The source's chain of `sub_op == k` tests is written as a match
on `sub_op = opcode & 0x00FF`, with the catch-all arm as the final
`else: raise`. -/
def execMisc (s : Chip8) (opcode : Nat) : Chip8 × Option Chip8Error :=
  let tx := (opcode &&& 0x0F00) >>> 8
  match opcode &&& 0x00FF with
  | 0x07 =>
    ({ s with v := s.v.set tx s.delay_timer }, none)
  | 0x0A =>
    ({ s with waiting_for_key_press := true, pc := s.pc - 2 }, none)
  | 0x15 =>
    ({ s with delay_timer := s.v.getD tx 0 }, none)
  | 0x18 =>
    ({ s with sound_timer := s.v.getD tx 0 }, none)
  | 0x1E =>
    ({ s with i := (s.i + s.v.getD tx 0) &&& 0xFFFF }, none)
  | 0x29 =>
    ({ s with i := (s.v.getD tx 0 * 5) &&& 0xFFFF }, none)
  | 0x33 =>
    let m1 := s.memory.set s.i (s.v.getD tx 0 / 100)
    let m2 := m1.set (s.i + 1) (s.v.getD tx 0 % 100 / 10)
    ({ s with memory := m2.set (s.i + 2) (s.v.getD tx 0 % 10) }, none)
  | 0x55 =>
    ({ s with
        memory := (List.range (tx + 1)).foldl (fun m j => m.set (s.i + j) (s.v.getD j 0)) s.memory },
      none)
  | 0x65 =>
    ({ s with
        v := (List.range (tx + 1)).foldl (fun vv j => vv.set j (s.memory.getD (s.i + j) 0)) s.v },
      none)
  | _ => (s, some (.unsupportedOpcode opcode))

/-- The dispatch body of `Cpu.step` (src/cpu.py lines 69-205): everything
after the opcode fetch and the wait-flag check, starting with the `pc += 2`
pre-increment.  Returns the mutated state and the error raised, if any;
mutations performed before a `raise` are kept, as in Python.  The source's
chain of `nibble == 0xK000` tests over `nibble = opcode & 0xF000` is written
as a match on `(opcode & 0xF000) >> 12`, which takes each value `K` exactly
when the corresponding test succeeds; the final catch-all arm is the
source's unreachable trailing `else: raise` (lines 204-205).  The larger
instruction families are factored into the `exec…` helpers above. -/
def execOp (s0 : Chip8) (opcode rnd : Nat) : Chip8 × Option Chip8Error :=
  match (opcode &&& 0xF000) >>> 12 with
  | 0 => exec0 { s0 with pc := s0.pc + 2 } opcode
  | 1 =>
    ({ s0 with pc := opcode &&& 0x0FFF }, none)
  | 2 =>
    ({ s0 with
        stack := pyListSet s0.stack s0.sp (s0.pc + 2)
        sp := s0.sp + 1
        pc := opcode &&& 0x0FFF }, none)
  | 3 =>
    if s0.v.getD ((opcode &&& 0x0F00) >>> 8) 0 = opcode &&& 0x00FF then
      ({ s0 with pc := s0.pc + 2 + 2 }, none)
    else ({ s0 with pc := s0.pc + 2 }, none)
  | 4 =>
    if s0.v.getD ((opcode &&& 0x0F00) >>> 8) 0 ≠ opcode &&& 0x00FF then
      ({ s0 with pc := s0.pc + 2 + 2 }, none)
    else ({ s0 with pc := s0.pc + 2 }, none)
  | 5 =>
    if s0.v.getD ((opcode &&& 0x0F00) >>> 8) 0 = s0.v.getD ((opcode &&& 0x00F0) >>> 4) 0 then
      ({ s0 with pc := s0.pc + 2 + 2 }, none)
    else ({ s0 with pc := s0.pc + 2 }, none)
  | 6 =>
    ({ s0 with
        pc := s0.pc + 2
        v := s0.v.set ((opcode &&& 0x0F00) >>> 8) ((opcode &&& 0x00FF) &&& 0xFF) }, none)
  | 7 =>
    ({ s0 with
        pc := s0.pc + 2
        v := s0.v.set ((opcode &&& 0x0F00) >>> 8)
          ((s0.v.getD ((opcode &&& 0x0F00) >>> 8) 0 + (opcode &&& 0x00FF)) &&& 0xFF) }, none)
  | 8 => execALU { s0 with pc := s0.pc + 2 } opcode
  | 9 =>
    if s0.v.getD ((opcode &&& 0x0F00) >>> 8) 0 ≠ s0.v.getD ((opcode &&& 0x00F0) >>> 4) 0 then
      ({ s0 with pc := s0.pc + 2 + 2 }, none)
    else ({ s0 with pc := s0.pc + 2 }, none)
  | 10 =>
    ({ s0 with
        pc := s0.pc + 2
        i := opcode &&& 0x0FFF }, none)
  | 11 =>
    ({ s0 with pc := (opcode &&& 0x0FFF) + s0.v.getD 0 0 }, none)
  | 12 =>
    ({ s0 with
        pc := s0.pc + 2
        v := s0.v.set ((opcode &&& 0x0F00) >>> 8) ((rnd &&& (opcode &&& 0x00FF)) &&& 0xFF) },
      none)
  | 13 => execDraw { s0 with pc := s0.pc + 2 } opcode
  | 14 => execKeySkip { s0 with pc := s0.pc + 2 } opcode
  | 15 => execMisc { s0 with pc := s0.pc + 2 } opcode
  | _ => ({ s0 with pc := s0.pc + 2 }, some (.unsupportedOpcode opcode))

/-- `Cpu.step` from `src/cpu.py`: run the 60Hz timer block, fetch the opcode,
fail with `invalidState` when `waiting_for_key_press` is set, otherwise
dispatch.  `now` models `time.time()` and `rnd` models the
`random.randint(0, 255)` byte drawn by the `C` opcode. -/
def step (s : Chip8) (now : Int) (rnd : Nat) : Chip8 × Option Chip8Error :=
  let s1 := tickTimers s now
  if s1.waiting_for_key_press then (s1, some .invalidState)
  else execOp s1 (fetch s1) rnd

/-- Clearing bit `key` of the keyboard bitmask:
Python `keyboard &= ~(1 << chip8_key)` on a nonnegative int. -/
def clearBit (n key : Nat) : Nat :=
  if n.testBit key then n - (1 <<< key) else n

/-- The `SDL_KEYDOWN` handler of `src/main.py`: set the key's bit in the
keyboard bitmask and, when a key wait is pending, complete it through
`Cpu.key_pressed`. -/
def keyDown (s : Chip8) (key : Nat) : Chip8 :=
  let s1 := { s with keyboard := s.keyboard ||| (1 <<< key) }
  if s1.waiting_for_key_press then key_pressed s1 key else s1

/-- The `SDL_KEYUP` handler of `src/main.py`: clear the key's bit. -/
def keyUp (s : Chip8) (key : Nat) : Chip8 :=
  { s with keyboard := clearBit s.keyboard key }

/-- States reachable by the host loop of `src/main.py` from a freshly
loaded machine: `Chip8()` then `Cpu.load_program`, followed by any
interleaving of `Cpu.step` calls (errors are caught and the loop continues
with the mutated state) and key-down/key-up events. -/
inductive Reach : Chip8 → Prop where
  | load : ∀ t0 prog, Reach (load_program (initChip8 t0) prog)
  | step : ∀ s now rnd, Reach s → Reach (step s now rnd).1
  | keydown : ∀ s k, Reach s → Reach (keyDown s k)
  | keyup : ∀ s k, Reach s → Reach (keyUp s k)

/-- The jump-target parity side condition under which `pc` stays even: the
instruction about to execute, if it is a jump (`1nnn`), call (`2nnn`) or
jump-with-offset (`Bnnn`), targets an even address. -/
def jumpTargetsEven (s : Chip8) : Prop :=
  ((fetch s &&& 0xF000 = 0x1000 ∨ fetch s &&& 0xF000 = 0x2000) →
    2 ∣ (fetch s &&& 0x0FFF)) ∧
  (fetch s &&& 0xF000 = 0xB000 → 2 ∣ ((fetch s &&& 0x0FFF) + s.v.getD 0 0))

/-- States reachable as in `Reach`, but where every executed jump, call and
jump-with-offset instruction has an even target address. -/
inductive ReachAligned : Chip8 → Prop where
  | load : ∀ t0 prog, ReachAligned (load_program (initChip8 t0) prog)
  | step : ∀ s now rnd, ReachAligned s → jumpTargetsEven s →
      ReachAligned (step s now rnd).1
  | keydown : ∀ s k, ReachAligned s → ReachAligned (keyDown s k)
  | keyup : ∀ s k, ReachAligned s → ReachAligned (keyUp s k)

/-- The opcode patterns rejected by the dispatch of `Cpu.step`: family 0
other than `00E0`/`00EE`, family 8 with a sub-operation not in
{0,…,7,0xE}, family E with a low byte other than `9E`/`A1`, and family F
with a low byte that is none of the defined sub-operations. -/
def isUnsupported (op : Nat) : Prop :=
  (op &&& 0xF000 = 0x0000 ∧ op ≠ 0x00E0 ∧ op ≠ 0x00EE) ∨
  (op &&& 0xF000 = 0x8000 ∧ ∀ k ∈ ([0, 1, 2, 3, 4, 5, 6, 7, 14] : List Nat), op &&& 0x000F ≠ k) ∨
  (op &&& 0xF000 = 0xE000 ∧ op &&& 0x00FF ≠ 0x9E ∧ op &&& 0x00FF ≠ 0xA1) ∨
  (op &&& 0xF000 = 0xF000 ∧
    ∀ k ∈ ([0x07, 0x0A, 0x15, 0x18, 0x1E, 0x29, 0x33, 0x55, 0x65] : List Nat), op &&& 0x00FF ≠ k)

instance (op : Nat) : Decidable (isUnsupported op) := by
  unfold isUnsupported
  infer_instance

/-! ## Generic list and bit-arithmetic helper lemmas -/

lemma getD_set_self (l : List Nat) (j a : Nat) (h : j < l.length) :
    (l.set j a).getD j 0 = a := by
  rw [List.getD_eq_getElem?_getD, List.getElem?_set_self h]
  rfl

lemma getD_set_ne (l : List Nat) {j k : Nat} (a : Nat) (h : j ≠ k) :
    (l.set j a).getD k 0 = l.getD k 0 := by
  rw [List.getD_eq_getElem?_getD, List.getElem?_set_ne h, ← List.getD_eq_getElem?_getD]

lemma getD_map_mod (l : List Nat) (m j : Nat) :
    (l.map (· % m)).getD j 0 = l.getD j 0 % m := by
  by_cases h : j < l.length
  · have h2 : j < (l.map (· % m)).length := by simpa using h
    rw [List.getD_eq_getElem _ _ h2, List.getD_eq_getElem _ _ h, List.getElem_map]
  · have h1 : l.length ≤ j := Nat.le_of_not_lt h
    rw [List.getD_eq_getElem?_getD, List.getD_eq_getElem?_getD,
      List.getElem?_eq_none h1, List.getElem?_eq_none (by simpa using h1)]
    simp

lemma getD_mem_or (l : List Nat) (j : Nat) : l.getD j 0 ∈ l ∨ l.getD j 0 = 0 := by
  by_cases h : j < l.length
  · left
    rw [List.getD_eq_getElem _ _ h]
    exact List.getElem_mem h
  · right
    rw [List.getD_eq_getElem?_getD, List.getElem?_eq_none (Nat.le_of_not_lt h)]
    rfl

lemma any_congr_mem {α : Type} {l : List α} {f g : α → Bool} (h : ∀ a ∈ l, f a = g a) :
    l.any f = l.any g := by
  induction l with
  | nil => rfl
  | cons a t ih =>
    simp only [List.any_cons, h a (List.mem_cons_self a t),
      ih fun b hb => h b (List.mem_cons_of_mem a hb)]

lemma and255_eq_mod (a : Nat) : a &&& 255 = a % 256 :=
  Nat.and_pow_two_sub_one_eq_mod a 8

lemma and4095_eq_mod (a : Nat) : a &&& 4095 = a % 4096 :=
  Nat.and_pow_two_sub_one_eq_mod a 12

lemma and65535_eq_mod (a : Nat) : a &&& 65535 = a % 65536 :=
  Nat.and_pow_two_sub_one_eq_mod a 16

lemma and_f000_shift (op : Nat) : op &&& 0xF000 = ((op &&& 0xF000) >>> 12) * 4096 := by
  have h1 : (op &&& 0xF000) % 4096 = 0 := by
    rw [← and4095_eq_mod, Nat.and_assoc, (by decide : (0xF000 : Nat) &&& 4095 = 0)]
    exact Nat.and_zero op
  have h3 : (op &&& 0xF000) >>> 12 = (op &&& 0xF000) / 4096 := by
    rw [Nat.shiftRight_eq_div_pow]
  omega

lemma nibble_x_lt (op : Nat) : (op &&& 0x0F00) >>> 8 < 16 := by
  have h1 : op &&& 0x0F00 ≤ 0x0F00 := Nat.and_le_right
  have h2 : (op &&& 0x0F00) >>> 8 = (op &&& 0x0F00) / 256 := by
    rw [Nat.shiftRight_eq_div_pow]
  omega

lemma nibble_y_lt (op : Nat) : (op &&& 0x00F0) >>> 4 < 16 := by
  have h1 : op &&& 0x00F0 ≤ 0x00F0 := Nat.and_le_right
  have h2 : (op &&& 0x00F0) >>> 4 = (op &&& 0x00F0) / 16 := by
    rw [Nat.shiftRight_eq_div_pow]
  omega

lemma byteSub_eq (a b : Nat) (ha : a < 256) (hb : b < 256) :
    byteSub a b = (a + 256 - b) % 256 := by
  unfold byteSub
  omega

lemma pyListGet_mod2 (l : List Nat) (i : Int) (h : ∀ a ∈ l, a % 2 = 0) :
    pyListGet l i % 2 = 0 := by
  unfold pyListGet
  split <;> rcases getD_mem_or l _ with hm | hm
  · exact h _ hm
  · omega
  · exact h _ hm
  · omega

lemma mem_pyListSet (l : List Nat) (i : Int) (a b : Nat) (hb : b ∈ pyListSet l i a) :
    b ∈ l ∨ b = a := by
  unfold pyListSet at hb
  split at hb <;> exact List.mem_or_eq_of_mem_set hb

/-! ## Projection lemmas for the timer block and the stepping shell -/

lemma tick_memory (s : Chip8) (now : Int) : (tickTimers s now).memory = s.memory := by
  simp only [tickTimers]; split_ifs <;> rfl

lemma tick_v (s : Chip8) (now : Int) : (tickTimers s now).v = s.v := by
  simp only [tickTimers]; split_ifs <;> rfl

lemma tick_gfx (s : Chip8) (now : Int) : (tickTimers s now).gfx = s.gfx := by
  simp only [tickTimers]; split_ifs <;> rfl

lemma tick_stack (s : Chip8) (now : Int) : (tickTimers s now).stack = s.stack := by
  simp only [tickTimers]; split_ifs <;> rfl

lemma tick_sp (s : Chip8) (now : Int) : (tickTimers s now).sp = s.sp := by
  simp only [tickTimers]; split_ifs <;> rfl

lemma tick_pc (s : Chip8) (now : Int) : (tickTimers s now).pc = s.pc := by
  simp only [tickTimers]; split_ifs <;> rfl

lemma tick_i (s : Chip8) (now : Int) : (tickTimers s now).i = s.i := by
  simp only [tickTimers]; split_ifs <;> rfl

lemma tick_sound (s : Chip8) (now : Int) : (tickTimers s now).sound_timer = s.sound_timer := by
  simp only [tickTimers]; split_ifs <;> rfl

lemma tick_keyboard (s : Chip8) (now : Int) : (tickTimers s now).keyboard = s.keyboard := by
  simp only [tickTimers]; split_ifs <;> rfl

lemma tick_waiting (s : Chip8) (now : Int) :
    (tickTimers s now).waiting_for_key_press = s.waiting_for_key_press := by
  simp only [tickTimers]; split_ifs <;> rfl

lemma fetch_tick (s : Chip8) (now : Int) : fetch (tickTimers s now) = fetch s := by
  unfold fetch
  rw [tick_memory, tick_pc]

lemma step_eq_execOp (s : Chip8) (now : Int) (rnd : Nat)
    (h : s.waiting_for_key_press = false) :
    step s now rnd = execOp (tickTimers s now) (fetch s) rnd := by
  simp only [step]
  rw [fetch_tick, tick_waiting, h]
  simp

/-! ## Characterization of the sprite blit -/

lemma mem_spriteRowIdxs {x yy b idx : Nat} :
    idx ∈ spriteRowIdxs x yy b ↔
      ∃ c, c < 8 ∧ x + c < 64 ∧ spriteBit b c = true ∧ idx = yy * 64 + (x + c) := by
  simp only [spriteRowIdxs, spriteBit, List.mem_map, List.mem_filter, List.mem_range,
    Bool.and_eq_true, decide_eq_true_eq, beq_iff_eq]
  constructor
  · rintro ⟨c, ⟨hc, hx, hb⟩, rfl⟩
    exact ⟨c, hc, hx, hb, rfl⟩
  · rintro ⟨c, hc, hx, hb, rfl⟩
    exact ⟨c, ⟨hc, hx, hb⟩, rfl⟩

lemma div64_of_mem_spriteRowIdxs {x yy b idx : Nat} (h : idx ∈ spriteRowIdxs x yy b) :
    idx / 64 = yy := by
  obtain ⟨c, hc, hxc, hb, rfl⟩ := mem_spriteRowIdxs.mp h
  omega

lemma spriteRowIdxs_nodup (x yy b : Nat) : (spriteRowIdxs x yy b).Nodup := by
  apply List.Nodup.map_on
  · intro c1 _ c2 _ he
    omega
  · exact (List.nodup_range 8).filter _

lemma toggleRow_length (gfx idxs : List Nat) : (toggleRow gfx idxs).length = gfx.length := by
  induction idxs generalizing gfx with
  | nil => rfl
  | cons a rest ih =>
    show (toggleRow (gfx.set a (gfx.getD a 0 ^^^ 0xFFFFFFFF)) rest).length = gfx.length
    rw [ih, List.length_set]

lemma toggleRow_getD (gfx idxs : List Nat) (hnd : idxs.Nodup)
    (hlt : ∀ j ∈ idxs, j < gfx.length) (k : Nat) :
    (toggleRow gfx idxs).getD k 0 =
      if k ∈ idxs then gfx.getD k 0 ^^^ 0xFFFFFFFF else gfx.getD k 0 := by
  induction idxs generalizing gfx with
  | nil => simp [toggleRow]
  | cons a rest ih =>
    obtain ⟨hna, hndr⟩ := List.nodup_cons.mp hnd
    have ha : a < gfx.length := hlt a (List.mem_cons_self a rest)
    have hrest : ∀ j ∈ rest, j < (gfx.set a (gfx.getD a 0 ^^^ 0xFFFFFFFF)).length := by
      intro j hj
      rw [List.length_set]
      exact hlt j (List.mem_cons_of_mem a hj)
    show (toggleRow (gfx.set a (gfx.getD a 0 ^^^ 0xFFFFFFFF)) rest).getD k 0 = _
    rw [ih _ hndr hrest]
    by_cases hk : k = a
    · subst hk
      rw [if_neg hna, if_pos (List.mem_cons_self k rest), getD_set_self _ _ _ ha]
    · have hne : a ≠ k := fun hc => hk hc.symm
      by_cases hk2 : k ∈ rest
      · rw [if_pos hk2, if_pos (List.mem_cons_of_mem a hk2), getD_set_ne _ _ hne]
      · rw [if_neg hk2, if_neg (by simp [hk, hk2]), getD_set_ne _ _ hne]

lemma mem_drawListIdxs_div {x y : Nat} :
    ∀ (bytes : List Nat) (r idx : Nat), idx ∈ drawListIdxs x y r bytes →
      y + r ≤ idx / 64 ∧ idx / 64 < 32 := by
  intro bytes
  induction bytes with
  | nil => intro r idx h; simp [drawListIdxs] at h
  | cons b rest ih =>
    intro r idx h
    rw [drawListIdxs] at h
    split at h
    · simp at h
    · rename_i hy
      rcases List.mem_append.mp h with h1 | h2
      · have := div64_of_mem_spriteRowIdxs h1
        omega
      · have := ih (r + 1) idx h2
        omega

lemma drawRows_spec (x y : Nat) :
    ∀ (bytes : List Nat) (r : Nat) (gfx : List Nat), gfx.length = 2048 →
      (drawRows x y r bytes gfx).1.length = 2048 ∧
      (∀ k, (drawRows x y r bytes gfx).1.getD k 0 =
        if k ∈ drawListIdxs x y r bytes then gfx.getD k 0 ^^^ 0xFFFFFFFF
        else gfx.getD k 0) ∧
      (drawRows x y r bytes gfx).2 =
        (drawListIdxs x y r bytes).any fun k => decide (0 < gfx.getD k 0) := by
  intro bytes
  induction bytes with
  | nil =>
    intro r gfx h
    refine ⟨h, fun k => ?_, rfl⟩
    simp [drawRows, drawListIdxs]
  | cons b rest ih =>
    intro r gfx h
    simp only [drawRows]
    rw [drawListIdxs]
    by_cases hy : 32 ≤ y + r
    · rw [if_pos hy, if_pos hy]
      exact ⟨h, fun k => by simp, by simp⟩
    · rw [if_neg hy, if_neg hy]
      dsimp only
      have h32 : y + r < 32 := by omega
      have hmemR : ∀ j ∈ spriteRowIdxs x (y + r) b, j < gfx.length := by
        intro j hj
        have hd := div64_of_mem_spriteRowIdxs hj
        omega
      have hndR := spriteRowIdxs_nodup x (y + r) b
      have hlen1 : (toggleRow gfx (spriteRowIdxs x (y + r) b)).length = 2048 := by
        rw [toggleRow_length, h]
      obtain ⟨ih1, ih2, ih3⟩ := ih (r + 1) (toggleRow gfx (spriteRowIdxs x (y + r) b)) hlen1
      have hdisj : ∀ k, k ∈ drawListIdxs x y (r + 1) rest → k ∉ spriteRowIdxs x (y + r) b := by
        intro k hk hR
        have h1 := mem_drawListIdxs_div rest (r + 1) k hk
        have h2 := div64_of_mem_spriteRowIdxs hR
        omega
      refine ⟨ih1, fun k => ?_, ?_⟩
      · rw [ih2 k, toggleRow_getD gfx _ hndR hmemR k]
        simp only [List.mem_append]
        by_cases hkR : k ∈ spriteRowIdxs x (y + r) b
        · have hkL : k ∉ drawListIdxs x y (r + 1) rest := fun hc => hdisj k hc hkR
          simp [hkR, hkL]
        · by_cases hkL : k ∈ drawListIdxs x y (r + 1) rest <;> simp [hkR, hkL]
      · rw [ih3, List.any_append]
        congr 1
        apply any_congr_mem
        intro k hk
        have hne := toggleRow_getD gfx _ hndR hmemR k
        rw [if_neg (hdisj k hk)] at hne
        simp only [hne]

lemma draw_fast_spec (c : Chip8) (x y n : Nat) (h : c.gfx.length = 2048) :
    (draw_sprites_fast c x y n).1.length = 2048 ∧
    (∀ k, (draw_sprites_fast c x y n).1.getD k 0 =
        if k ∈ drawnIdxs c x y n then (c.gfx.getD k 0 % 4294967296) ^^^ 0xFFFFFFFF
        else c.gfx.getD k 0 % 4294967296) ∧
    (draw_sprites_fast c x y n).2 =
      (drawnIdxs c x y n).any fun k => decide (0 < c.gfx.getD k 0 % 4294967296) := by
  have hlen : (c.gfx.map (· % 4294967296)).length = 2048 := by
    rw [List.length_map, h]
  obtain ⟨h1, h2, h3⟩ :=
    drawRows_spec x y (((c.memory.drop c.i).take n).map (· % 256)) 0 _ hlen
  refine ⟨h1, fun k => ?_, ?_⟩
  · have := h2 k
    rw [getD_map_mod] at this
    exact this
  · rw [show (draw_sprites_fast c x y n).2 =
        (drawRows x y 0 (((c.memory.drop c.i).take n).map (· % 256))
          (c.gfx.map (· % 4294967296))).2 from rfl, h3]
    apply any_congr_mem
    intro k _
    rw [getD_map_mod]

lemma mem_drawListIdxs_iff (x y : Nat) :
    ∀ (bytes : List Nat) (r idx : Nat),
      idx ∈ drawListIdxs x y r bytes ↔
        ∃ j, j < bytes.length ∧ y + (r + j) < 32 ∧
          idx ∈ spriteRowIdxs x (y + (r + j)) (bytes.getD j 0) := by
  intro bytes
  induction bytes with
  | nil => intro r idx; simp [drawListIdxs]
  | cons b rest ih =>
    intro r idx
    rw [drawListIdxs]
    split
    · rename_i hy
      simp only [List.mem_nil_iff, false_iff, not_exists]
      rintro j ⟨hj, h32, hm⟩
      omega
    · rename_i hy
      rw [List.mem_append, ih (r + 1)]
      constructor
      · rintro (h1 | ⟨j, hj, h32, hm⟩)
        · exact ⟨0, by simp, by omega, by simpa using h1⟩
        · refine ⟨j + 1, by simpa using hj, by omega, ?_⟩
          have he : y + (r + (j + 1)) = y + (r + 1 + j) := by omega
          rw [he]
          simpa using hm
      · rintro ⟨j, hj, h32, hm⟩
        cases j with
        | zero =>
          left
          simpa using hm
        | succ j =>
          right
          refine ⟨j, by simpa using hj, by omega, ?_⟩
          have he : y + (r + 1 + j) = y + (r + (j + 1)) := by omega
          rw [he]
          simpa using hm

lemma sprite_byte_getD (c : Chip8) {n j : Nat} (hm : c.memory.length = 4096)
    (hI : c.i + n ≤ 4096) (hj : j < n) :
    (((c.memory.drop c.i).take n).map (· % 256)).getD j 0 =
      c.memory.getD (c.i + j) 0 % 256 := by
  rw [getD_map_mod]
  have hlt : j < ((c.memory.drop c.i).take n).length := by
    simp only [List.length_take, List.length_drop, hm]
    omega
  have hlt2 : c.i + j < c.memory.length := by omega
  rw [List.getD_eq_getElem _ _ hlt, List.getElem_take, List.getElem_drop,
    List.getD_eq_getElem _ _ hlt2]

lemma sprite_bytes_length (c : Chip8) {n : Nat} (hm : c.memory.length = 4096)
    (hI : c.i + n ≤ 4096) :
    (((c.memory.drop c.i).take n).map (· % 256)).length = n := by
  simp only [List.length_map, List.length_take, List.length_drop, hm]
  omega

lemma mem_drawnIdxs (c : Chip8) (x y n idx : Nat) (hm : c.memory.length = 4096)
    (hI : c.i + n ≤ 4096) :
    idx ∈ drawnIdxs c x y n ↔
      ∃ r, r < n ∧ y + r < 32 ∧
        ∃ cc, cc < 8 ∧ x + cc < 64 ∧
          spriteBit (c.memory.getD (c.i + r) 0 % 256) cc = true ∧
          idx = (y + r) * 64 + (x + cc) := by
  unfold drawnIdxs
  rw [mem_drawListIdxs_iff, sprite_bytes_length c hm hI]
  constructor
  · rintro ⟨j, hj, h32, hmem⟩
    rw [sprite_byte_getD c hm hI hj] at hmem
    obtain ⟨cc, hcc, hx, hb, rfl⟩ := mem_spriteRowIdxs.mp hmem
    exact ⟨j, hj, by omega, cc, hcc, hx, by simpa using hb, by simp⟩
  · rintro ⟨r, hr, h32, cc, hcc, hx, hb, rfl⟩
    refine ⟨r, hr, by omega, ?_⟩
    rw [sprite_byte_getD c hm hI hr]
    exact mem_spriteRowIdxs.mpr ⟨cc, hcc, hx, hb, by simp⟩

/-! ## The framebuffer representation invariant: pixels are 0 or 0xFFFFFFFF -/

lemma toggleRow_mem_inv (gfx idxs : List Nat) (h : ∀ p ∈ gfx, p = 0 ∨ p = 4294967295) :
    ∀ p ∈ toggleRow gfx idxs, p = 0 ∨ p = 4294967295 := by
  induction idxs generalizing gfx with
  | nil => exact h
  | cons a rest ih =>
    show ∀ p ∈ toggleRow (gfx.set a (gfx.getD a 0 ^^^ 0xFFFFFFFF)) rest, _
    apply ih
    intro p hp
    rcases List.mem_or_eq_of_mem_set hp with hm | he
    · exact h p hm
    · subst he
      rcases getD_mem_or gfx a with hm | h0
      · rcases h _ hm with h0 | h1
        · rw [h0]
          right
          rfl
        · rw [h1]
          left
          rfl
      · rw [h0]
        right
        rfl

lemma drawRows_mem_inv (x y : Nat) :
    ∀ (bytes : List Nat) (r : Nat) (gfx : List Nat),
      (∀ p ∈ gfx, p = 0 ∨ p = 4294967295) →
      ∀ p ∈ (drawRows x y r bytes gfx).1, p = 0 ∨ p = 4294967295 := by
  intro bytes
  induction bytes with
  | nil => intro r gfx h; exact h
  | cons b rest ih =>
    intro r gfx h
    simp only [drawRows]
    by_cases hy : 32 ≤ y + r
    · rw [if_pos hy]
      exact h
    · rw [if_neg hy]
      exact ih (r + 1) _ (toggleRow_mem_inv _ _ h)

lemma draw_fast_gfx_inv (c : Chip8) (x y n : Nat)
    (h : ∀ p ∈ c.gfx, p = 0 ∨ p = 4294967295) :
    ∀ p ∈ (draw_sprites_fast c x y n).1, p = 0 ∨ p = 4294967295 := by
  have hmap : ∀ p ∈ c.gfx.map (· % 4294967296), p = 0 ∨ p = 4294967295 := by
    intro p hp
    obtain ⟨q, hq, rfl⟩ := List.mem_map.mp hp
    rcases h q hq with rfl | rfl
    · left
      rfl
    · right
      rfl
  exact drawRows_mem_inv x y _ 0 _ hmap

lemma exec0_gfx (s : Chip8) (op : Nat) :
    (exec0 s op).1.gfx = s.gfx ∨ (exec0 s op).1.gfx = List.replicate (64 * 32) 0 := by
  simp only [exec0]
  repeat' split
  all_goals first | exact Or.inl rfl | exact Or.inr rfl

lemma exec0_stack (s : Chip8) (op : Nat) : (exec0 s op).1.stack = s.stack := by
  simp only [exec0]
  repeat' split
  all_goals rfl

lemma exec0_pc (s : Chip8) (op : Nat) :
    (exec0 s op).1.pc = s.pc ∨ (exec0 s op).1.pc = pyListGet s.stack (s.sp - 1) := by
  simp only [exec0]
  repeat' split
  all_goals first | exact Or.inl rfl | exact Or.inr rfl

lemma execALU_gfx (s : Chip8) (op : Nat) : (execALU s op).1.gfx = s.gfx := by
  simp only [execALU]
  repeat' split
  all_goals rfl

lemma execALU_stack (s : Chip8) (op : Nat) : (execALU s op).1.stack = s.stack := by
  simp only [execALU]
  repeat' split
  all_goals rfl

lemma execALU_pc (s : Chip8) (op : Nat) : (execALU s op).1.pc = s.pc := by
  simp only [execALU]
  repeat' split
  all_goals rfl

lemma execDraw_gfx (s : Chip8) (op : Nat) :
    (execDraw s op).1.gfx =
      (draw_sprites_fast s (s.v.getD ((op &&& 0x0F00) >>> 8) 0)
        (s.v.getD ((op &&& 0x00F0) >>> 4) 0) (op &&& 0x000F)).1 := rfl

lemma execDraw_stack (s : Chip8) (op : Nat) : (execDraw s op).1.stack = s.stack := rfl

lemma execDraw_pc (s : Chip8) (op : Nat) : (execDraw s op).1.pc = s.pc := rfl

lemma execKeySkip_gfx (s : Chip8) (op : Nat) : (execKeySkip s op).1.gfx = s.gfx := by
  simp only [execKeySkip]
  repeat' split
  all_goals rfl

lemma execKeySkip_stack (s : Chip8) (op : Nat) : (execKeySkip s op).1.stack = s.stack := by
  simp only [execKeySkip]
  repeat' split
  all_goals rfl

lemma execKeySkip_pc (s : Chip8) (op : Nat) :
    (execKeySkip s op).1.pc = s.pc ∨ (execKeySkip s op).1.pc = s.pc + 2 := by
  simp only [execKeySkip]
  repeat' split
  all_goals first | exact Or.inl rfl | exact Or.inr rfl

lemma execMisc_gfx (s : Chip8) (op : Nat) : (execMisc s op).1.gfx = s.gfx := by
  simp only [execMisc]
  repeat' split
  all_goals rfl

lemma execMisc_stack (s : Chip8) (op : Nat) : (execMisc s op).1.stack = s.stack := by
  simp only [execMisc]
  repeat' split
  all_goals rfl

lemma execMisc_pc (s : Chip8) (op : Nat) :
    (execMisc s op).1.pc = s.pc ∨ (execMisc s op).1.pc = s.pc - 2 := by
  simp only [execMisc]
  repeat' split
  all_goals first | exact Or.inl rfl | exact Or.inr rfl

lemma execOp_gfx_cases (s : Chip8) (op rnd : Nat) :
    (execOp s op rnd).1.gfx = s.gfx ∨
    (execOp s op rnd).1.gfx = List.replicate (64 * 32) 0 ∨
    ∃ x y n, (execOp s op rnd).1.gfx =
      (draw_sprites_fast { s with pc := s.pc + 2 } x y n).1 := by
  simp only [execOp]
  repeat' split
  all_goals first
    | exact Or.inl rfl
    | (rcases exec0_gfx { s with pc := s.pc + 2 } op with he | he
       exacts [Or.inl he, Or.inr (Or.inl he)])
    | exact Or.inl (execALU_gfx { s with pc := s.pc + 2 } op)
    | exact Or.inl (execKeySkip_gfx { s with pc := s.pc + 2 } op)
    | exact Or.inl (execMisc_gfx { s with pc := s.pc + 2 } op)
    | exact Or.inr (Or.inr ⟨_, _, _, execDraw_gfx { s with pc := s.pc + 2 } op⟩)

lemma execOp_stack_cases (s : Chip8) (op rnd : Nat) :
    (execOp s op rnd).1.stack = s.stack ∨
    (execOp s op rnd).1.stack = pyListSet s.stack s.sp (s.pc + 2) := by
  simp only [execOp]
  repeat' split
  all_goals first
    | exact Or.inl rfl
    | exact Or.inr rfl
    | exact Or.inl (exec0_stack { s with pc := s.pc + 2 } op)
    | exact Or.inl (execALU_stack { s with pc := s.pc + 2 } op)
    | exact Or.inl (execDraw_stack { s with pc := s.pc + 2 } op)
    | exact Or.inl (execKeySkip_stack { s with pc := s.pc + 2 } op)
    | exact Or.inl (execMisc_stack { s with pc := s.pc + 2 } op)

lemma execOp_gfx_inv (s : Chip8) (op rnd : Nat)
    (h : ∀ p ∈ s.gfx, p = 0 ∨ p = 4294967295) :
    ∀ p ∈ (execOp s op rnd).1.gfx, p = 0 ∨ p = 4294967295 := by
  rcases execOp_gfx_cases s op rnd with he | he | ⟨x, y, n, he⟩ <;> rw [he]
  · exact h
  · intro p hp
    left
    exact List.eq_of_mem_replicate hp
  · exact draw_fast_gfx_inv { s with pc := s.pc + 2 } x y n h

lemma step_gfx_inv (s : Chip8) (now : Int) (rnd : Nat)
    (h : ∀ p ∈ s.gfx, p = 0 ∨ p = 4294967295) :
    ∀ p ∈ (step s now rnd).1.gfx, p = 0 ∨ p = 4294967295 := by
  simp only [step]
  split
  · rw [tick_gfx]
    exact h
  · exact execOp_gfx_inv _ _ _ (by rw [tick_gfx]; exact h)

/-! ## Parity preservation of the program counter -/

lemma execOp_pc_even (s : Chip8) (op rnd : Nat)
    (hpc : s.pc % 2 = 0) (hst : ∀ a ∈ s.stack, a % 2 = 0)
    (h12 : ((op &&& 0xF000) >>> 12 = 1 ∨ (op &&& 0xF000) >>> 12 = 2) →
      (op &&& 0x0FFF) % 2 = 0)
    (hB : (op &&& 0xF000) >>> 12 = 11 → ((op &&& 0x0FFF) + s.v.getD 0 0) % 2 = 0) :
    (execOp s op rnd).1.pc % 2 = 0 := by
  simp only [execOp]
  repeat' split
  all_goals first
    | exact h12 (Or.inl (by assumption))
    | exact h12 (Or.inr (by assumption))
    | exact hB (by assumption)
    | exact (show (s.pc + 2) % 2 = 0 by omega)
    | exact (show (s.pc + 2 + 2) % 2 = 0 by omega)
    | (rw [execALU_pc]
       exact (show (s.pc + 2) % 2 = 0 by omega))
    | (rw [execDraw_pc]
       exact (show (s.pc + 2) % 2 = 0 by omega))
    | (rcases exec0_pc { s with pc := s.pc + 2 } op with he | he <;> rw [he] <;>
        first
          | exact (show (s.pc + 2) % 2 = 0 by omega)
          | exact pyListGet_mod2 _ _ hst)
    | (rcases execKeySkip_pc { s with pc := s.pc + 2 } op with he | he <;> rw [he] <;>
        first
          | exact (show (s.pc + 2) % 2 = 0 by omega)
          | exact (show (s.pc + 2 + 2) % 2 = 0 by omega))
    | (rcases execMisc_pc { s with pc := s.pc + 2 } op with he | he <;> rw [he] <;>
        first
          | exact (show (s.pc + 2) % 2 = 0 by omega)
          | exact (show (s.pc + 2 - 2) % 2 = 0 by omega))

lemma execOp_stack_even (s : Chip8) (op rnd : Nat)
    (hpc : s.pc % 2 = 0) (hst : ∀ a ∈ s.stack, a % 2 = 0) :
    ∀ a ∈ (execOp s op rnd).1.stack, a % 2 = 0 := by
  rcases execOp_stack_cases s op rnd with he | he <;> rw [he]
  · exact hst
  · intro a ha
    rcases mem_pyListSet _ _ _ _ ha with hm | hm
    · exact hst a hm
    · omega

lemma step_pc_stack_even (s : Chip8) (now : Int) (rnd : Nat)
    (hpc : s.pc % 2 = 0) (hst : ∀ a ∈ s.stack, a % 2 = 0) (hcond : jumpTargetsEven s) :
    (step s now rnd).1.pc % 2 = 0 ∧ ∀ a ∈ (step s now rnd).1.stack, a % 2 = 0 := by
  simp only [step]
  split
  · constructor
    · rw [tick_pc]
      exact hpc
    · rw [tick_stack]
      exact hst
  · have hpc2 : (tickTimers s now).pc % 2 = 0 := by rw [tick_pc]; exact hpc
    have hst2 : ∀ a ∈ (tickTimers s now).stack, a % 2 = 0 := by rw [tick_stack]; exact hst
    constructor
    · apply execOp_pc_even _ _ _ hpc2 hst2
      · intro hx
        rw [fetch_tick] at hx ⊢
        have hm := and_f000_shift (fetch s)
        rcases hx with h | h
        · have h1 : fetch s &&& 0xF000 = 0x1000 := by rw [h] at hm; omega
          have := hcond.1 (Or.inl h1)
          omega
        · have h1 : fetch s &&& 0xF000 = 0x2000 := by rw [h] at hm; omega
          have := hcond.1 (Or.inr h1)
          omega
      · intro hx
        rw [fetch_tick] at hx
        rw [fetch_tick, tick_v]
        have hm := and_f000_shift (fetch s)
        have h1 : fetch s &&& 0xF000 = 0xB000 := by rw [hx] at hm; omega
        have := hcond.2 h1
        omega
    · exact execOp_stack_even _ _ _ hpc2 hst2

/-! ## The program loader -/

lemma writeProg_length : ∀ (prog m : List Nat) (addr : Nat),
    (writeProg m addr prog).length = m.length := by
  intro prog
  induction prog with
  | nil => intro m addr; rfl
  | cons b rest ih =>
    intro m addr
    show (writeProg (if addr < 4096 then m.set addr (b &&& 0xFF) else m) (addr + 1) rest).length = _
    rw [ih]
    split <;> simp

lemma writeProg_getD : ∀ (prog m : List Nat) (addr : Nat), m.length = 4096 →
    ∀ a, (writeProg m addr prog).getD a 0 =
      if addr ≤ a ∧ a < addr + prog.length ∧ a < 4096 then prog.getD (a - addr) 0 &&& 0xFF
      else m.getD a 0 := by
  intro prog
  induction prog with
  | nil =>
    intro m addr hm a
    rw [if_neg (show ¬(addr ≤ a ∧ a < addr + ([] : List Nat).length ∧ a < 4096) by
      simp only [List.length_nil]
      omega)]
    rfl
  | cons b rest ih =>
    intro m addr hm a
    have hm1 : (if addr < 4096 then m.set addr (b &&& 0xFF) else m).length = 4096 := by
      split <;> simp [hm]
    show (writeProg _ (addr + 1) rest).getD a 0 = _
    rw [ih _ (addr + 1) hm1 a]
    simp only [List.length_cons]
    by_cases ha : a = addr
    · subst ha
      rw [if_neg (show ¬(a + 1 ≤ a ∧ a < a + 1 + rest.length ∧ a < 4096) by omega)]
      by_cases h4 : a < 4096
      · have hset : (if a < 4096 then m.set a (b &&& 0xFF) else m).getD a 0 = b &&& 0xFF := by
          rw [if_pos h4]
          exact getD_set_self m a _ (by omega)
        rw [hset, if_pos (show a ≤ a ∧ a < a + (rest.length + 1) ∧ a < 4096 by omega),
          Nat.sub_self, List.getD_cons_zero]
      · have hset : (if a < 4096 then m.set a (b &&& 0xFF) else m).getD a 0 = m.getD a 0 := by
          rw [if_neg h4]
        rw [hset, if_neg (show ¬(a ≤ a ∧ a < a + (rest.length + 1) ∧ a < 4096) by omega)]
    · by_cases hc : addr + 1 ≤ a ∧ a < addr + 1 + rest.length ∧ a < 4096
      · rw [if_pos hc, if_pos (show addr ≤ a ∧ a < addr + (rest.length + 1) ∧ a < 4096 by omega)]
        have he : a - addr = (a - (addr + 1)) + 1 := by omega
        rw [he, List.getD_cons_succ]
      · have hset : (if addr < 4096 then m.set addr (b &&& 0xFF) else m).getD a 0 = m.getD a 0 := by
          split
          · exact getD_set_ne m _ (fun hx => ha hx.symm)
          · rfl
        rw [if_neg hc, hset,
          if_neg (show ¬(addr ≤ a ∧ a < addr + (rest.length + 1) ∧ a < 4096) by omega)]

lemma base_mem_length : (FONT_CHARACTERS ++ List.replicate (4096 - 80) 0).length = 4096 := by
  rw [List.length_append, List.length_replicate]
  rfl

lemma base_mem_getD_lt (a : Nat) (h : a < 80) :
    (FONT_CHARACTERS ++ List.replicate (4096 - 80) 0).getD a 0 = FONT_CHARACTERS.getD a 0 := by
  rw [List.getD_eq_getElem?_getD, List.getElem?_append_left (show a < FONT_CHARACTERS.length from h),
    ← List.getD_eq_getElem?_getD]

lemma base_mem_getD_ge (a : Nat) (h : 80 ≤ a) :
    (FONT_CHARACTERS ++ List.replicate (4096 - 80) 0).getD a 0 = 0 := by
  rw [List.getD_eq_getElem?_getD,
    List.getElem?_append_right (show FONT_CHARACTERS.length ≤ a from h)]
  by_cases h2 : a - FONT_CHARACTERS.length < 4096 - 80
  · rw [List.getElem?_replicate, if_pos h2]
    rfl
  · rw [List.getElem?_replicate, if_neg h2]
    rfl

/-! ## Dispatch reduction lemmas -/

lemma execOp_dispatch_0 (s0 : Chip8) (op rnd : Nat) (hf : op &&& 0xF000 = 0x0000) :
    execOp s0 op rnd = exec0 { s0 with pc := s0.pc + 2 } op := by
  have hd : (op &&& 0xF000) >>> 12 = 0 := by rw [hf]; decide
  simp only [execOp, hd]

lemma execOp_dispatch_8 (s0 : Chip8) (op rnd : Nat) (hf : op &&& 0xF000 = 0x8000) :
    execOp s0 op rnd = execALU { s0 with pc := s0.pc + 2 } op := by
  have hd : (op &&& 0xF000) >>> 12 = 8 := by rw [hf]; decide
  simp only [execOp, hd]

lemma execOp_dispatch_E (s0 : Chip8) (op rnd : Nat) (hf : op &&& 0xF000 = 0xE000) :
    execOp s0 op rnd = execKeySkip { s0 with pc := s0.pc + 2 } op := by
  have hd : (op &&& 0xF000) >>> 12 = 14 := by rw [hf]; decide
  simp only [execOp, hd]

lemma execOp_dispatch_F (s0 : Chip8) (op rnd : Nat) (hf : op &&& 0xF000 = 0xF000) :
    execOp s0 op rnd = execMisc { s0 with pc := s0.pc + 2 } op := by
  have hd : (op &&& 0xF000) >>> 12 = 15 := by rw [hf]; decide
  simp only [execOp, hd]

lemma execMisc_dispatch_0A (s : Chip8) (op : Nat) (h : op &&& 0x00FF = 0x0A) :
    execMisc s op = ({ s with waiting_for_key_press := true, pc := s.pc - 2 }, none) := by
  simp only [execMisc, h]

lemma fetch_congr (a b : Chip8) (hm : a.memory = b.memory) (hp : a.pc = b.pc) :
    fetch a = fetch b := by
  unfold fetch
  rw [hm, hp]

lemma small_and255 (k : Nat) (hk : k ≤ 15) : k &&& 0xFF = k := by
  rw [and255_eq_mod, Nat.mod_eq_of_lt (by omega)]

lemma keyDown_waiting_true (s : Chip8) (k : Nat) (h : s.waiting_for_key_press = true) :
    keyDown s k = key_pressed { s with keyboard := s.keyboard ||| (1 <<< k) } k := by
  simp only [keyDown, h]
  rw [if_pos trivial]

lemma keyDown_waiting_false (s : Chip8) (k : Nat) (h : s.waiting_for_key_press = false) :
    keyDown s k = { s with keyboard := s.keyboard ||| (1 <<< k) } := by
  simp only [keyDown, h]
  rw [if_neg Bool.false_ne_true]

lemma key_pressed_spec (s : Chip8) (k : Nat) (hv : s.v.length = 16) (hk : k ≤ 15) :
    (key_pressed s k).v.getD ((fetch s &&& 0x0F00) >>> 8) 0 = k ∧
    (key_pressed s k).waiting_for_key_press = false ∧
    (key_pressed s k).pc = s.pc + 2 ∧
    (key_pressed s k).memory = s.memory ∧
    (key_pressed s k).v = s.v.set ((fetch s &&& 0x0F00) >>> 8) k := by
  have hfe : fetch { s with waiting_for_key_press := false } = fetch s := rfl
  refine ⟨?_, rfl, rfl, rfl, ?_⟩
  · show (s.v.set ((fetch { s with waiting_for_key_press := false } &&& 0x0F00) >>> 8)
      (k &&& 0xFF)).getD ((fetch s &&& 0x0F00) >>> 8) 0 = k
    rw [hfe, small_and255 k hk]
    exact getD_set_self s.v _ k (by rw [hv]; exact nibble_x_lt (fetch s))
  · show s.v.set ((fetch { s with waiting_for_key_press := false } &&& 0x0F00) >>> 8)
      (k &&& 0xFF) = _
    rw [hfe, small_and255 k hk]

lemma getD_lt_256 (l : List Nat) (hb : ∀ r ∈ l, r < 256) (j : Nat) : l.getD j 0 < 256 := by
  rcases getD_mem_or l j with hm | h0
  · exact hb _ hm
  · omega

lemma bit7_flag (a : Nat) : (if a &&& 0x80 = 0x80 then 1 else 0) = a / 128 % 2 := by
  have h := Nat.and_two_pow a 7
  have h2 := Nat.toNat_testBit a 7
  rw [show (0x80 : Nat) = 2 ^ 7 from rfl, h, h2]
  have h3 : a / 2 ^ 7 % 2 = 0 ∨ a / 2 ^ 7 % 2 = 1 := by omega
  rcases h3 with h3 | h3 <;> rw [h3] <;> simp

lemma shift12_lt (op : Nat) : (op &&& 0xF000) >>> 12 < 16 := by
  have h1 : op &&& 0xF000 ≤ 0xF000 := Nat.and_le_right
  have h2 : (op &&& 0xF000) >>> 12 = (op &&& 0xF000) / 4096 := by
    rw [Nat.shiftRight_eq_div_pow]
  omega

lemma not_unsupported_of_ne (op m : Nat) (hf : op &&& 0xF000 = m)
    (h1 : m ≠ 0x0000) (h2 : m ≠ 0x8000) (h3 : m ≠ 0xE000) (h4 : m ≠ 0xF000) :
    ¬ isUnsupported op := by
  rintro (⟨h, -, -⟩ | ⟨h, -⟩ | ⟨h, -, -⟩ | ⟨h, -⟩) <;> omega

lemma execOp_err (s : Chip8) (op rnd : Nat) :
    (execOp s op rnd).2 =
      if isUnsupported op then some (Chip8Error.unsupportedOpcode op) else none := by
  have hlt := shift12_lt op
  have hcases : (op &&& 0xF000) >>> 12 = 0 ∨ (op &&& 0xF000) >>> 12 = 1 ∨
      (op &&& 0xF000) >>> 12 = 2 ∨ (op &&& 0xF000) >>> 12 = 3 ∨
      (op &&& 0xF000) >>> 12 = 4 ∨ (op &&& 0xF000) >>> 12 = 5 ∨
      (op &&& 0xF000) >>> 12 = 6 ∨ (op &&& 0xF000) >>> 12 = 7 ∨
      (op &&& 0xF000) >>> 12 = 8 ∨ (op &&& 0xF000) >>> 12 = 9 ∨
      (op &&& 0xF000) >>> 12 = 10 ∨ (op &&& 0xF000) >>> 12 = 11 ∨
      (op &&& 0xF000) >>> 12 = 12 ∨ (op &&& 0xF000) >>> 12 = 13 ∨
      (op &&& 0xF000) >>> 12 = 14 ∨ (op &&& 0xF000) >>> 12 = 15 := by omega
  rcases hcases with h | h | h | h | h | h | h | h | h | h | h | h | h | h | h | h
  · -- family 0: 00E0 and 00EE are supported, everything else raises
    have hf : op &&& 0xF000 = 0x0000 := by rw [and_f000_shift op, h]
    simp only [execOp, h]
    by_cases h1 : op = 0x00E0
    · subst h1
      rw [if_neg (by decide : ¬ isUnsupported 0x00E0)]
      rfl
    · by_cases h2 : op = 0x00EE
      · subst h2
        rw [if_neg (by decide : ¬ isUnsupported 0x00EE)]
        rfl
      · rw [if_pos (show isUnsupported op from Or.inl ⟨hf, h1, h2⟩)]
        simp only [exec0]
        rw [if_neg h1, if_neg h2]
  · rw [if_neg (not_unsupported_of_ne op 0x1000 (by rw [and_f000_shift op, h])
      (by decide) (by decide) (by decide) (by decide))]
    simp only [execOp, h]
  · rw [if_neg (not_unsupported_of_ne op 0x2000 (by rw [and_f000_shift op, h])
      (by decide) (by decide) (by decide) (by decide))]
    simp only [execOp, h]
  · rw [if_neg (not_unsupported_of_ne op 0x3000 (by rw [and_f000_shift op, h])
      (by decide) (by decide) (by decide) (by decide))]
    simp only [execOp, h]
    split <;> rfl
  · rw [if_neg (not_unsupported_of_ne op 0x4000 (by rw [and_f000_shift op, h])
      (by decide) (by decide) (by decide) (by decide))]
    simp only [execOp, h]
    split <;> rfl
  · rw [if_neg (not_unsupported_of_ne op 0x5000 (by rw [and_f000_shift op, h])
      (by decide) (by decide) (by decide) (by decide))]
    simp only [execOp, h]
    split <;> rfl
  · rw [if_neg (not_unsupported_of_ne op 0x6000 (by rw [and_f000_shift op, h])
      (by decide) (by decide) (by decide) (by decide))]
    simp only [execOp, h]
  · rw [if_neg (not_unsupported_of_ne op 0x7000 (by rw [and_f000_shift op, h])
      (by decide) (by decide) (by decide) (by decide))]
    simp only [execOp, h]
  · -- family 8: sub-operations 0-7 and E are supported, the rest raise
    have hf : op &&& 0xF000 = 0x8000 := by rw [and_f000_shift op, h]
    simp only [execOp, h]
    by_cases hmem : ∀ k ∈ ([0, 1, 2, 3, 4, 5, 6, 7, 14] : List Nat), op &&& 0x000F ≠ k
    · rw [if_pos (show isUnsupported op from Or.inr (Or.inl ⟨hf, hmem⟩))]
      simp only [execALU]
      split
      all_goals first
        | rfl
        | (exact absurd (by assumption) (hmem _ (by decide)))
    · push_neg at hmem
      obtain ⟨k, hkmem, hkeq⟩ := hmem
      have hno : ¬ isUnsupported op := by
        intro hc
        rcases hc with ⟨hz, -, -⟩ | ⟨-, hall⟩ | ⟨hz, -, -⟩ | ⟨hz, -⟩
        · omega
        · exact hall k hkmem hkeq
        · omega
        · omega
      rw [if_neg hno]
      fin_cases hkmem <;> simp only [execALU, hkeq]
  · rw [if_neg (not_unsupported_of_ne op 0x9000 (by rw [and_f000_shift op, h])
      (by decide) (by decide) (by decide) (by decide))]
    simp only [execOp, h]
    split <;> rfl
  · rw [if_neg (not_unsupported_of_ne op 0xA000 (by rw [and_f000_shift op, h])
      (by decide) (by decide) (by decide) (by decide))]
    simp only [execOp, h]
  · rw [if_neg (not_unsupported_of_ne op 0xB000 (by rw [and_f000_shift op, h])
      (by decide) (by decide) (by decide) (by decide))]
    simp only [execOp, h]
  · rw [if_neg (not_unsupported_of_ne op 0xC000 (by rw [and_f000_shift op, h])
      (by decide) (by decide) (by decide) (by decide))]
    simp only [execOp, h]
  · rw [if_neg (not_unsupported_of_ne op 0xD000 (by rw [and_f000_shift op, h])
      (by decide) (by decide) (by decide) (by decide))]
    simp only [execOp, h]
    rfl
  · -- family E: low bytes 9E and A1 are supported, the rest raise
    have hf : op &&& 0xF000 = 0xE000 := by rw [and_f000_shift op, h]
    simp only [execOp, h]
    by_cases h1 : op &&& 0x00FF = 0x009E
    · have hno : ¬ isUnsupported op := by
        intro hc
        rcases hc with ⟨hz, -, -⟩ | ⟨hz, -⟩ | ⟨-, hz, -⟩ | ⟨hz, -⟩
        · omega
        · omega
        · exact hz h1
        · omega
      rw [if_neg hno]
      simp only [execKeySkip]
      rw [if_pos h1]
      split <;> rfl
    · by_cases h2 : op &&& 0x00FF = 0x00A1
      · have hno : ¬ isUnsupported op := by
          intro hc
          rcases hc with ⟨hz, -, -⟩ | ⟨hz, -⟩ | ⟨-, -, hz⟩ | ⟨hz, -⟩
          · omega
          · omega
          · exact hz h2
          · omega
        rw [if_neg hno]
        simp only [execKeySkip]
        rw [if_neg h1, if_pos h2]
        split <;> rfl
      · rw [if_pos (show isUnsupported op from Or.inr (Or.inr (Or.inl ⟨hf, h1, h2⟩)))]
        simp only [execKeySkip]
        rw [if_neg h1, if_neg h2]
  · -- family F: the nine defined low bytes are supported, the rest raise
    have hf : op &&& 0xF000 = 0xF000 := by rw [and_f000_shift op, h]
    simp only [execOp, h]
    by_cases hmem : ∀ k ∈ ([0x07, 0x0A, 0x15, 0x18, 0x1E, 0x29, 0x33, 0x55, 0x65] : List Nat),
        op &&& 0x00FF ≠ k
    · rw [if_pos (show isUnsupported op from Or.inr (Or.inr (Or.inr ⟨hf, hmem⟩)))]
      simp only [execMisc]
      split
      all_goals first
        | rfl
        | (exact absurd (by assumption) (hmem _ (by decide)))
    · push_neg at hmem
      obtain ⟨k, hkmem, hkeq⟩ := hmem
      have hno : ¬ isUnsupported op := by
        intro hc
        rcases hc with ⟨hz, -, -⟩ | ⟨hz, -⟩ | ⟨hz, -, -⟩ | ⟨-, hall⟩
        · omega
        · omega
        · omega
        · exact hall k hkmem hkeq
      rw [if_neg hno]
      fin_cases hkmem <;> simp only [execMisc, hkeq]

/-! ## Claim theorems -/

/-- C10: for every byte sequence of length at most 3584 with each element in
0..255, `load_program` writes the 80-byte font at 0x000..0x04F, the program
bytes verbatim at 0x200.., zeroes everywhere else, sets `pc = 0x200` and
`sp = 0`, and modifies no other field of the machine state. -/
theorem c10_load_program (s : Chip8) (program : List Nat)
    (hlen : program.length ≤ 3584) (hbytes : ∀ b ∈ program, b < 256) :
    (∀ a, a < 80 →
      (load_program s program).memory.getD a 0 = FONT_CHARACTERS.getD a 0) ∧
    (∀ j, j < program.length →
      (load_program s program).memory.getD (512 + j) 0 = program.getD j 0) ∧
    (∀ a, 80 ≤ a → a < 512 → (load_program s program).memory.getD a 0 = 0) ∧
    (∀ a, 512 + program.length ≤ a → (load_program s program).memory.getD a 0 = 0) ∧
    (load_program s program).memory.length = 4096 ∧
    (load_program s program).pc = 512 ∧
    (load_program s program).sp = 0 ∧
    (load_program s program).v = s.v ∧
    (load_program s program).gfx = s.gfx ∧
    (load_program s program).stack = s.stack ∧
    (load_program s program).i = s.i ∧
    (load_program s program).delay_timer = s.delay_timer ∧
    (load_program s program).sound_timer = s.sound_timer ∧
    (load_program s program).keyboard = s.keyboard ∧
    (load_program s program).waiting_for_key_press = s.waiting_for_key_press ∧
    (load_program s program).watch_start = s.watch_start := by
  have hbase := base_mem_length
  have hget := writeProg_getD program _ 512 hbase
  refine ⟨?_, ?_, ?_, ?_, ?_, rfl, rfl, rfl, rfl, rfl, rfl, rfl, rfl, rfl, rfl, rfl⟩
  · intro a ha
    show (writeProg _ 512 program).getD a 0 = _
    rw [hget a, if_neg (by omega)]
    exact base_mem_getD_lt a ha
  · intro j hj
    show (writeProg _ 512 program).getD (512 + j) 0 = _
    rw [hget (512 + j), if_pos (by omega), Nat.add_sub_cancel_left]
    have hb : program.getD j 0 < 256 := by
      rcases getD_mem_or program j with hm | h0
      · exact hbytes _ hm
      · rw [h0]
        omega
    rw [and255_eq_mod, Nat.mod_eq_of_lt hb]
  · intro a ha1 ha2
    show (writeProg _ 512 program).getD a 0 = _
    rw [hget a, if_neg (by omega)]
    exact base_mem_getD_ge a ha1
  · intro a ha
    show (writeProg _ 512 program).getD a 0 = _
    rw [hget a, if_neg (by omega)]
    exact base_mem_getD_ge a (by omega)
  · show (writeProg _ 512 program).length = 4096
    rw [writeProg_length, hbase]

theorem c10_witness :
    ([171, 205] : List Nat).length ≤ 3584 ∧
    (∀ b ∈ ([171, 205] : List Nat), b < 256) ∧
    (∀ j, j < ([171, 205] : List Nat).length →
      (load_program (initChip8 0) [171, 205]).memory.getD (512 + j) 0 =
        ([171, 205] : List Nat).getD j 0) ∧
    (load_program (initChip8 0) [171, 205]).pc = 512 ∧
    (load_program (initChip8 0) [171, 205]).sp = 0 := by
  obtain ⟨h1, h2, h3, h4, h5, h6, h7, hrest⟩ :=
    c10_load_program (initChip8 0) [171, 205] (by decide) (by decide)
  exact ⟨by decide, by decide, h2, h6, h7⟩

/-- C5 (amended): calling `step` while `awaiting_key` is set fails with the
`InvalidState` error, leaving registers, memory, `pc`, stack, `sp`, index,
sound timer, keyboard and the wait flag unchanged — but the 60Hz timer block
still runs first, so the failing call may decrement a nonzero `delay_timer`
and update the `watch_start` timestamp (the resulting state is exactly
`tickTimers s now`). -/
theorem c5_step_while_waiting (s : Chip8) (now : Int) (rnd : Nat)
    (h : s.waiting_for_key_press = true) :
    (step s now rnd).2 = some Chip8Error.invalidState ∧
    (step s now rnd).1 = tickTimers s now ∧
    (step s now rnd).1.memory = s.memory ∧
    (step s now rnd).1.v = s.v ∧
    (step s now rnd).1.gfx = s.gfx ∧
    (step s now rnd).1.stack = s.stack ∧
    (step s now rnd).1.sp = s.sp ∧
    (step s now rnd).1.pc = s.pc ∧
    (step s now rnd).1.i = s.i ∧
    (step s now rnd).1.sound_timer = s.sound_timer ∧
    (step s now rnd).1.keyboard = s.keyboard ∧
    (step s now rnd).1.waiting_for_key_press = true := by
  have hstep : step s now rnd = (tickTimers s now, some Chip8Error.invalidState) := by
    simp only [step]
    rw [tick_waiting, h]
    simp
  rw [hstep]
  exact ⟨rfl, rfl, tick_memory s now, tick_v s now, tick_gfx s now, tick_stack s now,
    tick_sp s now, tick_pc s now, tick_i s now, tick_sound s now, tick_keyboard s now,
    by rw [tick_waiting]; exact h⟩

theorem c5_witness :
    (step { initChip8 2 with waiting_for_key_press := true } 3 0).2 =
      some Chip8Error.invalidState ∧
    (step { initChip8 2 with waiting_for_key_press := true } 3 0).1 =
      tickTimers { initChip8 2 with waiting_for_key_press := true } 3 :=
  ⟨(c5_step_while_waiting _ 3 0 rfl).1, (c5_step_while_waiting _ 3 0 rfl).2.1⟩

/-- C5 counterexample to the claim as stated: a `step` call on a waiting
machine with `delay_timer = 1` and 1 s of elapsed wall-clock time raises
`InvalidState` but still decrements the delay timer first, so the failing
call does not leave every timer unchanged. -/
theorem c5_counterexample :
    ({ initChip8 1 with waiting_for_key_press := true, delay_timer := 1 } : Chip8).delay_timer
      = 1 ∧
    (step { initChip8 1 with waiting_for_key_press := true, delay_timer := 1 } 2 0).2 =
      some Chip8Error.invalidState ∧
    (step { initChip8 1 with waiting_for_key_press := true, delay_timer := 1 } 2 0).1.delay_timer
      = 0 := by
  refine ⟨rfl, ?_, ?_⟩ <;> decide

/-- C3: the code evaluated at the failing input.  With `delay_timer = 10`,
`sound_timer = 5`, a recorded timestamp of 1 and a `step` at time 2 (a full
second elapsed, so the 60Hz gate fires), the source decrements only
`delay_timer`; `sound_timer` is never decremented anywhere in `step`,
contradicting the claim (and §4.3 of the spec, which flags this omission in
the source as an evident bug). -/
theorem c3_sound_timer_not_decremented :
    (step { initChip8 1 with delay_timer := 10, sound_timer := 5 } 2 0).1.delay_timer = 9 ∧
    (step { initChip8 1 with delay_timer := 10, sound_timer := 5 } 2 0).1.sound_timer = 5 ∧
    (step { initChip8 1 with delay_timer := 10, sound_timer := 5 } 2 0).1.watch_start = 2 := by
  refine ⟨?_, ?_, ?_⟩ <;> decide

/-- C4: executing `step` on a state whose instruction at `pc` is the
key-wait opcode `Fx0A` succeeds, sets `awaiting_key`, and leaves `pc`
unchanged (still addressing that instruction); then, for every key value
`k ≤ 15`, delivering a key-down completion writes `k` into the register `x`
decoded from the opcode still addressed by `pc`, clears `awaiting_key`, and
advances `pc` by exactly 2 — and a second key-down does not change the
registers, `pc`, or the wait flag again (it only updates the keyboard
bitmask). -/
theorem c4_key_wait (s : Chip8) (now : Int) (rnd : Nat)
    (hw : s.waiting_for_key_press = false)
    (hv : s.v.length = 16)
    (hf : fetch s &&& 0xF000 = 0xF000)
    (hsub : fetch s &&& 0x00FF = 0x0A) :
    (step s now rnd).2 = none ∧
    (step s now rnd).1.waiting_for_key_press = true ∧
    (step s now rnd).1.pc = s.pc ∧
    ∀ k, k ≤ 15 →
      (keyDown (step s now rnd).1 k).v.getD ((fetch s &&& 0x0F00) >>> 8) 0 = k ∧
      (keyDown (step s now rnd).1 k).waiting_for_key_press = false ∧
      (keyDown (step s now rnd).1 k).pc = s.pc + 2 ∧
      ∀ k2, (keyDown (keyDown (step s now rnd).1 k) k2).v = (keyDown (step s now rnd).1 k).v ∧
        (keyDown (keyDown (step s now rnd).1 k) k2).pc = s.pc + 2 ∧
        (keyDown (keyDown (step s now rnd).1 k) k2).waiting_for_key_press = false := by
  have hstep : step s now rnd =
      ({ tickTimers s now with
          waiting_for_key_press := true
          pc := (tickTimers s now).pc + 2 - 2 }, none) := by
    rw [step_eq_execOp s now rnd hw, execOp_dispatch_F _ _ rnd hf, execMisc_dispatch_0A _ _ hsub]
  rw [hstep]
  have hpc : (tickTimers s now).pc + 2 - 2 = s.pc := by
    rw [tick_pc]
    omega
  refine ⟨rfl, rfl, hpc, ?_⟩
  intro k hk
  rw [keyDown_waiting_true _ k rfl]
  have hm2 : ({ { tickTimers s now with
      waiting_for_key_press := true
      pc := (tickTimers s now).pc + 2 - 2 } with
      keyboard := ({ tickTimers s now with
        waiting_for_key_press := true
        pc := (tickTimers s now).pc + 2 - 2 } : Chip8).keyboard ||| (1 <<< k) } : Chip8).memory
      = s.memory := tick_memory s now
  have hp2 : ({ { tickTimers s now with
      waiting_for_key_press := true
      pc := (tickTimers s now).pc + 2 - 2 } with
      keyboard := ({ tickTimers s now with
        waiting_for_key_press := true
        pc := (tickTimers s now).pc + 2 - 2 } : Chip8).keyboard ||| (1 <<< k) } : Chip8).pc
      = s.pc := hpc
  have hfe := fetch_congr _ s hm2 hp2
  have hv2 : ({ { tickTimers s now with
      waiting_for_key_press := true
      pc := (tickTimers s now).pc + 2 - 2 } with
      keyboard := ({ tickTimers s now with
        waiting_for_key_press := true
        pc := (tickTimers s now).pc + 2 - 2 } : Chip8).keyboard ||| (1 <<< k) } : Chip8).v.length
      = 16 := by
    rw [tick_v]
    exact hv
  obtain ⟨h1, h2, h3, h4, h5⟩ := key_pressed_spec _ k hv2 hk
  rw [hfe] at h1
  refine ⟨h1, h2, ?_, ?_⟩
  · rw [h3, hp2]
  · intro k2
    rw [keyDown_waiting_false _ k2 h2]
    exact ⟨rfl, h3.trans (congrArg (fun t => t + 2) hp2), h2⟩

set_option maxRecDepth 10000 in
theorem c4_witness :
    (step (load_program (initChip8 0) [240, 10]) 1 0).2 = none ∧
    (step (load_program (initChip8 0) [240, 10]) 1 0).1.waiting_for_key_press = true ∧
    (step (load_program (initChip8 0) [240, 10]) 1 0).1.pc = 512 ∧
    (keyDown (step (load_program (initChip8 0) [240, 10]) 1 0).1 5).v.getD 0 0 = 5 ∧
    (keyDown (step (load_program (initChip8 0) [240, 10]) 1 0).1 5).pc = 514 := by
  obtain ⟨h1, h2, h3, h4⟩ :=
    c4_key_wait (load_program (initChip8 0) [240, 10]) 1 0 rfl (by decide) (by decide) (by decide)
  obtain ⟨g1, g2, g3, g4⟩ := h4 5 (by decide)
  have hx : (fetch (load_program (initChip8 0) [240, 10]) &&& 0x0F00) >>> 8 = 0 := by decide
  rw [hx] at g1
  exact ⟨h1, h2, h3, g1, g3⟩

/-- C6 (amended): executing `step` on a non-waiting state fails with
`UnsupportedOpcode` carrying the fetched opcode value *exactly when* the
opcode matches the patterns the dispatch rejects — family 0 other than
`00E0`/`00EE`, family 8 with an undefined sub-operation, family E with a low
byte other than `9E`/`A1`, or family F with an undefined low byte
(`isUnsupported`); every opcode outside these patterns executes with no
error.  (Families 5 and 9, whose only standard instruction has low nibble 0,
ignore the low nibble and execute the register-skip comparison instead of
failing; see the counterexample.) -/
theorem c6_unsupported (s : Chip8) (now : Int) (rnd : Nat)
    (hw : s.waiting_for_key_press = false) :
    ((step s now rnd).2 = some (Chip8Error.unsupportedOpcode (fetch s)) ↔
      isUnsupported (fetch s)) ∧
    ((step s now rnd).2 = none ↔ ¬ isUnsupported (fetch s)) := by
  rw [step_eq_execOp s now rnd hw, execOp_err]
  constructor
  · constructor
    · intro he
      by_contra hno
      rw [if_neg hno] at he
      exact Option.noConfusion he
    · intro hun
      rw [if_pos hun]
  · constructor
    · intro he
      intro hun
      rw [if_pos hun] at he
      exact Option.noConfusion he
    · intro hno
      rw [if_neg hno]

theorem c6_witness :
    isUnsupported (fetch (initChip8 0)) ∧
    (step (initChip8 0) 1 0).2 =
      some (Chip8Error.unsupportedOpcode (fetch (initChip8 0))) :=
  ⟨by decide, ((c6_unsupported (initChip8 0) 1 0 rfl).1).mpr (by decide)⟩

set_option maxRecDepth 10000 in
/-- C6 counterexample to the claim as stated: opcode `0x5001` is not one of
the 35 standard instructions (family 5's only instruction is `5xy0`), yet
`step` does not fail — the source never checks the low nibble of families 5
and 9, so `0x5001` executes as the skip-if-equal instruction (here
`V0 = V0`, so it skips and `pc` goes from 0x200 to 0x204). -/
theorem c6_counterexample :
    fetch (load_program (initChip8 0) [80, 1]) = 0x5001 ∧
    (step (load_program (initChip8 0) [80, 1]) 1 0).2 = none ∧
    (step (load_program (initChip8 0) [80, 1]) 1 0).1.pc = 516 := by
  refine ⟨?_, ?_, ?_⟩ <;> decide

/-- C2 (amended): for the family-8 arithmetic instructions with destination
register `x ≠ 15` (and, for `8xy5`, source register `y ≠ 15`): `8xy4` leaves
`VF = 1` iff `Vx + Vy > 255` and stores `(Vx + Vy) mod 256` in `Vx`; `8xy5`
leaves `VF = 1` iff `Vx > Vy` (0 when equal) and stores `(Vx - Vy) mod 256`
in `Vx`; `8xy6` leaves `VF` equal to the original bit 0 of `Vx` and halves
`Vx`; `8xyE` leaves `VF` equal to the original bit 7 of `Vx` and stores
`(2·Vx) mod 256` in `Vx`; all register writes are reduced mod 256.  (For
`x = 15` the result write overwrites the flag, and for `8xy5` with `y = 15`
the subtrahend read sees the freshly written flag; see the
counterexample.) -/
theorem c2_alu_flags (s : Chip8) (now : Int) (rnd : Nat)
    (hw : s.waiting_for_key_press = false)
    (hv : s.v.length = 16)
    (hb : ∀ r ∈ s.v, r < 256)
    (x y : Nat)
    (hx : (fetch s &&& 0x0F00) >>> 8 = x) (hy : (fetch s &&& 0x00F0) >>> 4 = y)
    (hf : fetch s &&& 0xF000 = 0x8000)
    (hx15 : x ≠ 15) :
    ((fetch s &&& 0x000F = 4) →
      (step s now rnd).1.v.getD 15 0 =
        (if 255 < s.v.getD x 0 + s.v.getD y 0 then 1 else 0) ∧
      (step s now rnd).1.v.getD x 0 = (s.v.getD x 0 + s.v.getD y 0) % 256) ∧
    ((fetch s &&& 0x000F = 5) → y ≠ 15 →
      (step s now rnd).1.v.getD 15 0 =
        (if s.v.getD y 0 < s.v.getD x 0 then 1 else 0) ∧
      (step s now rnd).1.v.getD x 0 = (s.v.getD x 0 + 256 - s.v.getD y 0) % 256) ∧
    ((fetch s &&& 0x000F = 6) →
      (step s now rnd).1.v.getD 15 0 = s.v.getD x 0 % 2 ∧
      (step s now rnd).1.v.getD x 0 = s.v.getD x 0 / 2) ∧
    ((fetch s &&& 0x000F = 14) →
      (step s now rnd).1.v.getD 15 0 = s.v.getD x 0 / 128 % 2 ∧
      (step s now rnd).1.v.getD x 0 = (s.v.getD x 0 * 2) % 256) := by
  have hxlt : x < 16 := hx ▸ nibble_x_lt (fetch s)
  have h15ne : (15 : Nat) ≠ x := fun hc => hx15 hc.symm
  have hlen15 : 15 < s.v.length := by omega
  have hlenx : ∀ a : Nat, x < (s.v.set 15 a).length := by
    intro a
    rw [List.length_set]
    omega
  refine ⟨?_, ?_, ?_, ?_⟩
  · intro hsub
    rw [step_eq_execOp s now rnd hw, execOp_dispatch_8 _ _ rnd hf]
    simp only [execALU, hsub, hx, hy, tick_v]
    constructor
    · rw [getD_set_ne _ _ hx15, getD_set_self _ _ _ hlen15]
    · rw [getD_set_self _ _ _ (hlenx _), and255_eq_mod]
  · intro hsub hy15
    rw [step_eq_execOp s now rnd hw, execOp_dispatch_8 _ _ rnd hf]
    simp only [execALU, hsub, hx, hy, tick_v]
    have h15ney : (15 : Nat) ≠ y := fun hc => hy15 hc.symm
    constructor
    · rw [getD_set_ne _ _ hx15, getD_set_self _ _ _ hlen15]
    · rw [getD_set_self _ _ _ (hlenx _), getD_set_ne _ _ h15ne, getD_set_ne _ _ h15ney,
        byteSub_eq _ _ (getD_lt_256 s.v hb x) (getD_lt_256 s.v hb y)]
  · intro hsub
    rw [step_eq_execOp s now rnd hw, execOp_dispatch_8 _ _ rnd hf]
    simp only [execALU, hsub, hx, hy, tick_v]
    constructor
    · rw [getD_set_ne _ _ hx15, getD_set_self _ _ _ hlen15]
      exact Nat.and_pow_two_sub_one_eq_mod _ 1
    · rw [getD_set_self _ _ _ (hlenx _), getD_set_ne _ _ h15ne,
        Nat.shiftRight_eq_div_pow]
  · intro hsub
    rw [step_eq_execOp s now rnd hw, execOp_dispatch_8 _ _ rnd hf]
    simp only [execALU, hsub, hx, hy, tick_v]
    constructor
    · rw [getD_set_ne _ _ hx15, getD_set_self _ _ _ hlen15]
      exact bit7_flag _
    · rw [getD_set_self _ _ _ (hlenx _), getD_set_ne _ _ h15ne, and255_eq_mod,
        Nat.shiftLeft_eq]

set_option maxRecDepth 10000 in
theorem c2_witness :
    (step { initChip8 0 with
        memory := ((List.replicate 4096 0).set 0 128).set 1 20
        v := ((List.replicate 16 0).set 0 255).set 1 1 } 1 0).1.v.getD 15 0 = 1 ∧
    (step { initChip8 0 with
        memory := ((List.replicate 4096 0).set 0 128).set 1 20
        v := ((List.replicate 16 0).set 0 255).set 1 1 } 1 0).1.v.getD 0 0 = 0 := by
  obtain ⟨hA, hS, hR, hL⟩ :=
    c2_alu_flags
      { initChip8 0 with
        memory := ((List.replicate 4096 0).set 0 128).set 1 20
        v := ((List.replicate 16 0).set 0 255).set 1 1 }
      1 0 rfl (by decide) (by decide) 0 1 (by decide) (by decide) (by decide) (by decide)
  obtain ⟨f1, f2⟩ := hA (by decide)
  constructor
  · rw [f1]
    decide
  · rw [f2]
    decide

set_option maxRecDepth 10000 in
/-- C2 counterexample to the claim as stated at `x = 15`: executing `8F06`
(shift-right with destination `VF`) on `V15 = 5` should, per the claim,
leave `VF` equal to the original bit 0 of `V15`, which is 1 — but the
source writes the flag first and then overwrites `v[15]` with the shifted
value of the freshly written flag, leaving `VF = 0`. -/
theorem c2_counterexample :
    ({ initChip8 0 with
        memory := ((List.replicate 4096 0).set 0 143).set 1 6
        v := (List.replicate 16 0).set 15 5 } : Chip8).v.getD 15 0 % 2 = 1 ∧
    (step { initChip8 0 with
        memory := ((List.replicate 4096 0).set 0 143).set 1 6
        v := (List.replicate 16 0).set 15 5 } 1 0).1.v.getD 15 0 = 0 := by
  constructor <;> decide

lemma getD_replicate_zero (n k : Nat) : (List.replicate n (0 : Nat)).getD k 0 = 0 := by
  rcases getD_mem_or (List.replicate n (0 : Nat)) k with hm | h0
  · exact List.eq_of_mem_replicate hm
  · exact h0

lemma init_gfx_len (t0 : Int) : (initChip8 t0).gfx.length = 2048 := by
  show (List.replicate (64 * 32) (0 : Nat)).length = 2048
  rw [List.length_replicate]

lemma init_gfx_lt (t0 : Int) : ∀ p ∈ (initChip8 t0).gfx, p < 4294967296 := by
  intro p hp
  have h0 : p = 0 :=
    List.eq_of_mem_replicate (show p ∈ List.replicate (64 * 32) (0 : Nat) from hp)
  omega

lemma init_gfx_bin (t0 : Int) : ∀ p ∈ (initChip8 t0).gfx, p = 0 ∨ p = 4294967295 := by
  intro p hp
  exact Or.inl
    (List.eq_of_mem_replicate (show p ∈ List.replicate (64 * 32) (0 : Nat) from hp))

lemma load_mem_length (s : Chip8) (prog : List Nat) :
    (load_program s prog).memory.length = 4096 := by
  show (writeProg (FONT_CHARACTERS ++ List.replicate (4096 - 80) 0) 512 prog).length = 4096
  rw [writeProg_length, base_mem_length]

lemma base_mem_lt :
    ∀ b ∈ FONT_CHARACTERS ++ List.replicate (4096 - 80) (0 : Nat), b < 256 := by
  intro b hb
  rcases List.mem_append.mp hb with h | h
  · have hfont : ∀ v ∈ FONT_CHARACTERS, v < 256 := by decide
    exact hfont b h
  · rw [List.eq_of_mem_replicate h]
    omega

lemma load_nil_mem_lt (s : Chip8) : ∀ b ∈ (load_program s []).memory, b < 256 :=
  fun b hb => base_mem_lt b hb

lemma draw_involution (c : Chip8) (x y n : Nat)
    (h2048 : c.gfx.length = 2048)
    (hlt : ∀ p ∈ c.gfx, p < 4294967296) :
    (draw_sprites_fast { c with gfx := (draw_sprites_fast c x y n).1 } x y n).1 = c.gfx := by
  obtain ⟨l1, g1, c1⟩ := draw_fast_spec c x y n h2048
  have h2048b : ({ c with gfx := (draw_sprites_fast c x y n).1 } : Chip8).gfx.length = 2048 := l1
  obtain ⟨l2, g2, c2⟩ := draw_fast_spec { c with gfx := (draw_sprites_fast c x y n).1 } x y n h2048b
  have hgb : ∀ k, c.gfx.getD k 0 < 4294967296 := by
    intro k
    rcases getD_mem_or c.gfx k with hm | h0
    · exact hlt _ hm
    · omega
  have hpt : ∀ k, (draw_sprites_fast { c with gfx := (draw_sprites_fast c x y n).1 } x y n).1.getD
      k 0 = c.gfx.getD k 0 := by
    intro k
    have hxb : (c.gfx.getD k 0 ^^^ 0xFFFFFFFF) < 4294967296 := by
      have h1 : c.gfx.getD k 0 < 2 ^ 32 := hgb k
      have h2 : (0xFFFFFFFF : Nat) < 2 ^ 32 := by decide
      exact Nat.xor_lt_two_pow h1 h2
    have g2k := g2 k
    rw [show drawnIdxs { c with gfx := (draw_sprites_fast c x y n).1 } x y n
        = drawnIdxs c x y n from rfl] at g2k
    rw [show ({ c with gfx := (draw_sprites_fast c x y n).1 } : Chip8).gfx
        = (draw_sprites_fast c x y n).1 from rfl] at g2k
    rw [g2k, g1 k]
    by_cases hk : k ∈ drawnIdxs c x y n
    · rw [if_pos hk, if_pos hk, Nat.mod_eq_of_lt (hgb k), Nat.mod_eq_of_lt hxb]
      exact Nat.xor_cancel_right _ _
    · rw [if_neg hk, if_neg hk, Nat.mod_eq_of_lt (hgb k), Nat.mod_eq_of_lt (hgb k)]
  apply List.ext_getElem (l2.trans h2048.symm)
  intro j hj1 hj2
  have := hpt j
  rw [List.getD_eq_getElem _ _ hj1, List.getD_eq_getElem _ _ hj2] at this
  exact this

set_option maxRecDepth 100000 in
lemma draw_concrete_first :
    (draw_sprites_fast { initChip8 0 with
        memory := (List.replicate 4096 0).set 0 255 } 60 0 1).1 =
      ((((List.replicate 2048 (0 : Nat)).set 60 4294967295).set 61 4294967295).set 62
        4294967295).set 63 4294967295 := by
  obtain ⟨l1, g1, c1⟩ := draw_fast_spec
    { initChip8 0 with memory := (List.replicate 4096 0).set 0 255 } 60 0 1 (init_gfx_len 0)
  have hidx : drawnIdxs { initChip8 0 with
      memory := (List.replicate 4096 0).set 0 255 } 60 0 1 = [60, 61, 62, 63] := by decide
  have hz : ∀ k, ({ initChip8 0 with
      memory := (List.replicate 4096 0).set 0 255 } : Chip8).gfx.getD k 0 = 0 :=
    fun k => getD_replicate_zero (64 * 32) k
  have key : ∀ j, (draw_sprites_fast { initChip8 0 with
      memory := (List.replicate 4096 0).set 0 255 } 60 0 1).1.getD j 0 =
      (((((List.replicate 2048 (0 : Nat)).set 60 4294967295).set 61 4294967295).set 62
        4294967295).set 63 4294967295).getD j 0 := by
    intro j
    rw [g1 j, hidx, hz j]
    by_cases h0 : j = 60
    · subst h0
      rw [if_pos (by decide)]
      rw [getD_set_ne _ _ (by decide : (63 : Nat) ≠ 60)]
      rw [getD_set_ne _ _ (by decide : (62 : Nat) ≠ 60)]
      rw [getD_set_ne _ _ (by decide : (61 : Nat) ≠ 60)]
      rw [getD_set_self _ _ _ (by simp)]
      decide
    · by_cases h1 : j = 61
      · subst h1
        rw [if_pos (by decide)]
        rw [getD_set_ne _ _ (by decide : (63 : Nat) ≠ 61)]
        rw [getD_set_ne _ _ (by decide : (62 : Nat) ≠ 61)]
        rw [getD_set_self _ _ _ (by simp)]
        decide
      · by_cases h2 : j = 62
        · subst h2
          rw [if_pos (by decide)]
          rw [getD_set_ne _ _ (by decide : (63 : Nat) ≠ 62)]
          rw [getD_set_self _ _ _ (by simp)]
          decide
        · by_cases h3 : j = 63
          · subst h3
            rw [if_pos (by decide)]
            rw [getD_set_self _ _ _ (by simp)]
            decide
          · rw [if_neg (by simp [h0, h1, h2, h3])]
            rw [getD_set_ne _ _ (Ne.symm h3)]
            rw [getD_set_ne _ _ (Ne.symm h2)]
            rw [getD_set_ne _ _ (Ne.symm h1)]
            rw [getD_set_ne _ _ (Ne.symm h0)]
            rw [getD_replicate_zero]
  refine List.ext_getElem ?_ ?_
  · rw [l1]
    simp
  · intro j hj1 hj2
    have hk := key j
    rw [List.getD_eq_getElem _ _ hj1, List.getD_eq_getElem _ _ hj2] at hk
    exact hk

set_option maxRecDepth 100000 in
/-- C9: drawing a sprite twice restores the framebuffer: for every machine
state whose framebuffer holds 32-bit pixel words, a second
`draw_sprites_fast` with the same memory, `I`, origin and row count undoes
the first.  Concretely, sprite byte `0xFF` with `n = 1` at `(60, 0)` on an
empty framebuffer sets exactly the 4 pixels at columns 60–63 of row 0 with
collision `false`, and the identical second draw clears exactly those 4
pixels with collision `true`. -/
theorem c9_draw_involution (c : Chip8) (x y n : Nat)
    (h2048 : c.gfx.length = 2048)
    (hlt : ∀ p ∈ c.gfx, p < 4294967296) :
    (draw_sprites_fast { c with gfx := (draw_sprites_fast c x y n).1 } x y n).1 = c.gfx ∧
    (draw_sprites_fast { initChip8 0 with
        memory := (List.replicate 4096 0).set 0 255 } 60 0 1).1 =
      ((((List.replicate 2048 (0 : Nat)).set 60 4294967295).set 61 4294967295).set 62
        4294967295).set 63 4294967295 ∧
    (draw_sprites_fast { initChip8 0 with
        memory := (List.replicate 4096 0).set 0 255 } 60 0 1).2 = false ∧
    (draw_sprites_fast { { initChip8 0 with memory := (List.replicate 4096 0).set 0 255 } with
        gfx := (draw_sprites_fast { initChip8 0 with
          memory := (List.replicate 4096 0).set 0 255 } 60 0 1).1 } 60 0 1).1 =
      List.replicate 2048 (0 : Nat) ∧
    (draw_sprites_fast { { initChip8 0 with memory := (List.replicate 4096 0).set 0 255 } with
        gfx := (draw_sprites_fast { initChip8 0 with
          memory := (List.replicate 4096 0).set 0 255 } 60 0 1).1 } 60 0 1).2 = true := by
  refine ⟨draw_involution c x y n h2048 hlt, draw_concrete_first, by decide, ?_, by decide⟩
  exact draw_involution { initChip8 0 with memory := (List.replicate 4096 0).set 0 255 }
    60 0 1 (init_gfx_len 0) (init_gfx_lt 0)

set_option maxRecDepth 100000 in
theorem c9_witness :
    (draw_sprites_fast { { initChip8 0 with memory := (List.replicate 4096 0).set 0 255 } with
        gfx := (draw_sprites_fast { initChip8 0 with
          memory := (List.replicate 4096 0).set 0 255 } 60 0 1).1 } 60 0 1).1 =
      ({ initChip8 0 with memory := (List.replicate 4096 0).set 0 255 } : Chip8).gfx :=
  (c9_draw_involution { initChip8 0 with memory := (List.replicate 4096 0).set 0 255 }
    60 0 1 (init_gfx_len 0) (init_gfx_lt 0)).1

/-- C1 (amended): for a state whose memory is the usual 4096 bytes with
`i + n ≤ 4096`, and whose framebuffer is the 2048-word buffer satisfying the
representation invariant (every pixel word is `0` or `0xFFFFFFFF`),
`draw_sprites_fast` reads `n` rows from `memory[I..I+n-1]` and clips without
wrapping: an in-range sprite bit 1 toggles its target pixel's on/off state,
an in-range sprite bit 0 leaves the target pixel word unchanged, every cell
not targeted by an in-range 1-bit is unchanged, and the collision flag is
true iff some in-range 1-bit targeted a pixel that was on.  The original
claim's "for every machine state" is refuted by `c1_counterexample`: a pixel
holding the word `1` (on for collision and rendering) is NOT toggled off by
a sprite 1-bit, because XOR with `0xFFFFFFFF` maps it to `4294967294`, which
is still on. -/
theorem c1_draw_clip_toggle (s : Chip8) (x y n : Nat)
    (hm : s.memory.length = 4096)
    (hI : s.i + n ≤ 4096)
    (hmb : ∀ b ∈ s.memory, b < 256)
    (hg : s.gfx.length = 2048)
    (hbin : ∀ p ∈ s.gfx, p = 0 ∨ p = 4294967295) :
    (∀ r c, r < n → c < 8 → y + r < 32 → x + c < 64 →
      spriteBit (s.memory.getD (s.i + r) 0) c = true →
        pixelOn (draw_sprites_fast s x y n).1 (y + r) (x + c) =
          !pixelOn s.gfx (y + r) (x + c)) ∧
    (∀ r c, r < n → c < 8 → y + r < 32 → x + c < 64 →
      spriteBit (s.memory.getD (s.i + r) 0) c = false →
        (draw_sprites_fast s x y n).1.getD ((y + r) * 64 + (x + c)) 0 =
          s.gfx.getD ((y + r) * 64 + (x + c)) 0) ∧
    (∀ idx,
      (¬ ∃ r c, r < n ∧ c < 8 ∧ y + r < 32 ∧ x + c < 64 ∧
          spriteBit (s.memory.getD (s.i + r) 0) c = true ∧ idx = (y + r) * 64 + (x + c)) →
        (draw_sprites_fast s x y n).1.getD idx 0 = s.gfx.getD idx 0) ∧
    ((draw_sprites_fast s x y n).2 = true ↔
      ∃ r c, r < n ∧ c < 8 ∧ y + r < 32 ∧ x + c < 64 ∧
        spriteBit (s.memory.getD (s.i + r) 0) c = true ∧
        pixelOn s.gfx (y + r) (x + c) = true) := by
  obtain ⟨l1, g1, c1⟩ := draw_fast_spec s x y n hg
  have hb256 : ∀ j, s.memory.getD j 0 % 256 = s.memory.getD j 0 :=
    fun j => Nat.mod_eq_of_lt (getD_lt_256 s.memory hmb j)
  have hmodid : ∀ idx, s.gfx.getD idx 0 % 4294967296 = s.gfx.getD idx 0 := by
    intro idx
    rcases getD_mem_or s.gfx idx with hmm | h0
    · rcases hbin _ hmm with h | h <;> rw [h]
    · rw [h0]
  refine ⟨?_, ?_, ?_, ?_⟩
  · intro r c hr hc hyr hxc hbit
    have hmem : (y + r) * 64 + (x + c) ∈ drawnIdxs s x y n := by
      refine (mem_drawnIdxs s x y n _ hm hI).mpr ⟨r, hr, hyr, c, hc, hxc, ?_, rfl⟩
      rw [hb256]
      exact hbit
    unfold pixelOn
    rw [g1 ((y + r) * 64 + (x + c)), if_pos hmem, hmodid]
    rcases getD_mem_or s.gfx ((y + r) * 64 + (x + c)) with hmm | h0
    · rcases hbin _ hmm with h | h <;> rw [h] <;> decide
    · rw [h0]
      decide
  · intro r c hr hc hyr hxc hbit
    have hnot : (y + r) * 64 + (x + c) ∉ drawnIdxs s x y n := by
      intro hmem
      obtain ⟨r', hr', hyr', c', hc', hxc', hbit', heq⟩ :=
        (mem_drawnIdxs s x y n _ hm hI).mp hmem
      have hrc : r' = r ∧ c' = c := by omega
      rw [hrc.1, hrc.2, hb256, hbit] at hbit'
      exact Bool.false_ne_true hbit'
    rw [g1 ((y + r) * 64 + (x + c)), if_neg hnot, hmodid]
  · intro idx hno
    have hnot : idx ∉ drawnIdxs s x y n := by
      intro hmem
      obtain ⟨r', hr', hyr', c', hc', hxc', hbit', heq⟩ :=
        (mem_drawnIdxs s x y n _ hm hI).mp hmem
      exact hno ⟨r', c', hr', hc', hyr', hxc', by rw [← hb256]; exact hbit', heq⟩
    rw [g1 idx, if_neg hnot, hmodid]
  · rw [c1]
    constructor
    · intro hany
      obtain ⟨idx, hmem, hpos⟩ := List.any_eq_true.mp hany
      obtain ⟨r', hr', hyr', c', hc', hxc', hbit', heq⟩ :=
        (mem_drawnIdxs s x y n _ hm hI).mp hmem
      refine ⟨r', c', hr', hc', hyr', hxc', by rw [← hb256]; exact hbit', ?_⟩
      have hpos2 : decide (0 < s.gfx.getD idx 0 % 4294967296) = true := hpos
      rw [hmodid] at hpos2
      unfold pixelOn
      rw [← heq]
      exact hpos2
    · rintro ⟨r, c, hr, hc, hyr, hxc, hbit, hpix⟩
      apply List.any_eq_true.mpr
      refine ⟨(y + r) * 64 + (x + c),
        (mem_drawnIdxs s x y n _ hm hI).mpr ⟨r, hr, hyr, c, hc, hxc, by rw [hb256]; exact hbit,
          rfl⟩, ?_⟩
      show decide (0 < s.gfx.getD ((y + r) * 64 + (x + c)) 0 % 4294967296) = true
      rw [hmodid]
      exact hpix

set_option maxRecDepth 100000 in
/-- C1 counterexample: in a state whose framebuffer stores the (nonzero, hence
on-screen) word `1` at pixel (0,0), drawing the single sprite byte `0x80`
(one 1-bit aimed at that very pixel, fully in range: x = 0, y = 0, n = 1,
I = 0) does NOT toggle the pixel off: it is still on afterwards, because the
code XORs the 32-bit word with `0xFFFFFFFF`, giving `4294967294 ≠ 0`.  This
refutes the unconditional "a sprite bit 1 XOR-toggles it" reading of the
claim. -/
theorem c1_counterexample :
    pixelOn (({ initChip8 0 with
        memory := (List.replicate 4096 0).set 0 128
        gfx := (List.replicate 2048 0).set 0 1 } : Chip8).gfx) 0 0 = true ∧
    spriteBit (({ initChip8 0 with
        memory := (List.replicate 4096 0).set 0 128
        gfx := (List.replicate 2048 0).set 0 1 } : Chip8).memory.getD 0 0) 0 = true ∧
    pixelOn (draw_sprites_fast { initChip8 0 with
        memory := (List.replicate 4096 0).set 0 128
        gfx := (List.replicate 2048 0).set 0 1 } 0 0 1).1 0 0 = true ∧
    (draw_sprites_fast { initChip8 0 with
        memory := (List.replicate 4096 0).set 0 128
        gfx := (List.replicate 2048 0).set 0 1 } 0 0 1).1.getD 0 0 = 4294967294 := by
  refine ⟨by decide, by decide, ?_, ?_⟩ <;> decide

set_option maxRecDepth 100000 in
/-- C1 witness: the freshly loaded machine (zero framebuffer, font in memory,
`I = 0`) satisfies every hypothesis of `c1_draw_clip_toggle`; drawing one row
of the font glyph `0` (byte `0xF0`) at the origin toggles pixel (0,0) on. -/
theorem c1_witness :
    pixelOn (draw_sprites_fast (load_program (initChip8 0) []) 0 0 1).1 0 0 = true := by
  obtain ⟨hA, hB, hC, hD⟩ := c1_draw_clip_toggle (load_program (initChip8 0) []) 0 0 1
    (load_mem_length (initChip8 0) []) (by decide) (load_nil_mem_lt (initChip8 0))
    (init_gfx_len 0) (init_gfx_bin 0)
  have h1 := hA 0 0 (by decide) (by decide) (by decide) (by decide) (by decide)
  have hold : pixelOn (load_program (initChip8 0) []).gfx (0 + 0) (0 + 0) = false := by decide
  rw [hold] at h1
  exact h1

/-- C7 (amended): in every state reachable from a freshly loaded machine by
any interleaving of `step` calls and key events, every framebuffer pixel
word is `0` or `0xFFFFFFFF = 4294967295` — the two-valued representation the
code actually maintains (the renderer and collision test read any nonzero
word as "on").  The original claim's "its value is 0 or 1" is refuted by
`c7_counterexample`: one reachable sprite draw stores `4294967295`, not `1`,
into a toggled pixel. -/
theorem c7_gfx_binary (s : Chip8) (h : Reach s) :
    ∀ p ∈ s.gfx, p = 0 ∨ p = 4294967295 := by
  induction h with
  | load t0 prog =>
    intro p hp
    exact init_gfx_bin t0 p hp
  | step s2 now rnd hr ih =>
    exact step_gfx_inv s2 now rnd ih
  | keydown s2 k hr ih =>
    intro p hp
    apply ih
    cases hw : s2.waiting_for_key_press with
    | false =>
      rw [keyDown_waiting_false s2 k hw] at hp
      exact hp
    | true =>
      rw [keyDown_waiting_true s2 k hw] at hp
      exact hp
  | keyup s2 k hr ih =>
    intro p hp
    exact ih p hp

set_option maxRecDepth 100000 in
/-- C7 counterexample: load the one-instruction program `D001` (draw the
1-row sprite at `(V0, V0) = (0, 0)` from `I = 0`, where memory holds the
font byte `0xF0`) and execute one `step`.  The resulting reachable state has
`4294967295` — not `0` or `1` — in framebuffer cell 0, refuting the claim
that pixels are always the binary values 0 or 1. -/
theorem c7_counterexample :
    Reach (step (load_program (initChip8 0) [208, 1]) 1 0).1 ∧
    (step (load_program (initChip8 0) [208, 1]) 1 0).1.gfx.getD 0 0 = 4294967295 ∧
    ¬((4294967295 : Nat) = 0 ∨ (4294967295 : Nat) = 1) := by
  refine ⟨Reach.step _ 1 0 (Reach.load 0 [208, 1]), ?_, by decide⟩
  decide

theorem c7_witness :
    (0 : Nat) = 0 ∨ (0 : Nat) = 4294967295 :=
  c7_gfx_binary (load_program (initChip8 0) []) (Reach.load 0 []) 0
    (show (0 : Nat) ∈ List.replicate (64 * 32) (0 : Nat) from
      List.mem_replicate.mpr ⟨by decide, rfl⟩)

/-- C8 (amended): `pc` (and every stacked return address) is even in every
state reachable from a freshly loaded machine provided every executed jump
(`1nnn`), call (`2nnn`) and jump-with-offset (`Bnnn`) instruction has an
even target — the `ReachAligned` restriction of `Reach`.  The original
unconditional claim is refuted by `c8_counterexample`: the reachable
one-step execution of `1201` leaves `pc = 513`, which is odd, because the
code loads `nnn` into `pc` verbatim rather than adding a multiple of 2. -/
theorem c8_pc_even (s : Chip8) (h : ReachAligned s) :
    Even s.pc ∧ ∀ a ∈ s.stack, Even a := by
  have main : s.pc % 2 = 0 ∧ ∀ a ∈ s.stack, a % 2 = 0 := by
    induction h with
    | load t0 prog =>
      constructor
      · exact (by decide : (512 : Nat) % 2 = 0)
      · intro a ha
        have hmem : a ∈ List.replicate 16 (0 : Nat) := ha
        rw [List.eq_of_mem_replicate hmem]
    | step s2 now rnd hr hcond ih =>
      exact step_pc_stack_even s2 now rnd ih.1 ih.2 hcond
    | keydown s2 k hr ih =>
      cases hw : s2.waiting_for_key_press with
      | false =>
        rw [keyDown_waiting_false s2 k hw]
        exact ih
      | true =>
        rw [keyDown_waiting_true s2 k hw]
        constructor
        · have h1 := ih.1
          show (s2.pc + 2) % 2 = 0
          omega
        · intro a ha
          exact ih.2 a ha
    | keyup s2 k hr ih =>
      exact ih
  exact ⟨Nat.even_iff.mpr main.1, fun a ha => Nat.even_iff.mpr (main.2 a ha)⟩

set_option maxRecDepth 100000 in
/-- C8 counterexample: load the one-instruction program `1201` (jump to
`0x201`) and execute one `step`.  The resulting reachable state has
`pc = 513`, which is odd — `step` assigns the 12-bit jump target to `pc`
verbatim, so even alignment is not preserved unconditionally. -/
theorem c8_counterexample :
    Reach (step (load_program (initChip8 0) [18, 1]) 1 0).1 ∧
    (step (load_program (initChip8 0) [18, 1]) 1 0).1.pc = 513 ∧
    ¬ Even (step (load_program (initChip8 0) [18, 1]) 1 0).1.pc := by
  refine ⟨Reach.step _ 1 0 (Reach.load 0 [18, 1]), by decide, by decide⟩

theorem c8_witness :
    Even (load_program (initChip8 0) []).pc ∧
    ∀ a ∈ (load_program (initChip8 0) []).stack, Even a :=
  c8_pc_even (load_program (initChip8 0) []) (ReachAligned.load 0 [])

end Chip8Py
